import Mathlib

set_option maxRecDepth 16384

/-!
Shallow embedding of `Library/OcConfigurationLib/PlistToConfig.py`
(OpenCorePkg, PlistToConfig template-to-config generator).

Modelling conventions:
* XML elements (the output of the external `xml.etree.ElementTree` reader)
  are the inductive `Elem`: tag, attribute list, optional text, children.
* The script's fatal exits are modelled as `Except Err`: `Err.user` for
  `error(...)` (user/input errors), `Err.internal` for `internal_error(...)`,
  `Err.exn` for uncaught Python exceptions (`TypeError`, `AttributeError`,
  `binascii.Error`), and `Err.fuel` for the recursion-fuel bound of the
  embedding (see below); the script itself can never produce `Err.fuel`
  on inputs whose tree depth is below the supplied fuel.
* The only output buffer written during parsing is the global `h_types`
  string buffer; it is threaded explicitly as `Buf` (a list of emitted
  lines, one `print(..., file=h_types)` call per entry).
* Diagnostic printing to stdout (`plist_print`, `plist_schema_print`,
  `oc_schema_print`, `debug`, and the `tab` indentation argument) has no
  effect on the output buffers or results and is not modelled.
* Python's dynamically typed values are modelled with explicit sums:
  `PyVal` for the `size` field (attribute string vs. inferred int),
  `ParseRes` for `parse_elem`'s result (a `PlistKey` or an
  `OcSchemaElement`).
* The mutual recursion of `parse_elem` with `parse_array`, `parse_map`,
  `parse_fields` and `parse_plist` is embedded by passing the recursive
  parser as an explicit function argument `pe` to the per-tag parsers and
  tying the knot in `parseElem`, which is structurally recursive on a
  fuel parameter; `parseElem_no_fuel` shows `Elem.size` of the
  element is always enough fuel.
* `base64.b64decode` and `bytes.hex` from the Python standard library are
  modelled for well-formed standard-alphabet base64 input; inputs the
  Python library rejects are mapped to `Err.exn`.
-/

/-! ## Document model (ElementTree elements) -/

inductive Elem : Type where
  | mk (tag : String) (attrib : List (String × String)) (text : Option String)
      (children : List Elem)

def Elem.tag : Elem → String
  | .mk t _ _ _ => t

def Elem.attrib : Elem → List (String × String)
  | .mk _ a _ _ => a

def Elem.text : Elem → Option String
  | .mk _ _ x _ => x

def Elem.children : Elem → List Elem
  | .mk _ _ _ c => c

/-- Lookup in an attribute mapping: `elem.attrib['k']` guarded by
`'k' in elem.attrib`. -/
def attrLookup (attrib : List (String × String)) (k : String) : Option String :=
  match attrib.find? (fun p => p.fst == k) with
  | some p => some p.snd
  | none => none

mutual
/-- Computable size of an element tree, used as recursion fuel. -/
def Elem.size : Elem → Nat
  | .mk _ _ _ cs => 1 + Elem.sizeList cs

def Elem.sizeList : List Elem → Nat
  | [] => 0
  | c :: cs => Elem.size c + Elem.sizeList cs
end

/-! ## Errors and dynamically typed values -/

/-- The script's terminating outcomes: `error(...)`, `internal_error(...)`,
an uncaught Python exception, or exhaustion of the embedding's recursion
fuel. -/
inductive Err : Type where
  | user (msg : String)
  | internal (msg : String)
  | exn (msg : String)
  | fuel
deriving DecidableEq

/-- The dynamically typed `size` value: either the raw attribute string
(`elem.attrib['size']`) or the int inferred from the decoded data length. -/
inductive PyVal : Type where
  | str (s : String)
  | int (n : Nat)
deriving DecidableEq

/-- Python `'%s' % v` for an optional string: `None` prints as `"None"`. -/
def pyStr : Option String → String
  | none => "None"
  | some s => s

/-- ASCII model of Python `str.upper()` for one character (every string the
script uppercases — type names, prefixes, key path segments — is ASCII). -/
def pyCharUpper (c : Char) : Char :=
  if 97 ≤ c.toNat ∧ c.toNat ≤ 122 then Char.ofNat (c.toNat - 32) else c

/-- ASCII model of Python `str.upper()`. -/
def pyUpper (s : String) : String :=
  String.mk (s.data.map pyCharUpper)

/-! ## base64 decoding and hex printing (Python stdlib model) -/

def b64val (c : Char) : Option Nat :=
  if 65 ≤ c.toNat ∧ c.toNat ≤ 90 then some (c.toNat - 65)
  else if 97 ≤ c.toNat ∧ c.toNat ≤ 122 then some (c.toNat - 71)
  else if 48 ≤ c.toNat ∧ c.toNat ≤ 57 then some (c.toNat + 4)
  else if c = '+' then some 62
  else if c = '/' then some 63
  else none

def decodeGroup (a b c d : Char) : Option (List Nat) :=
  match b64val a, b64val b with
  | some va, some vb =>
    if c = '=' then
      if d = '=' then some [va * 4 + vb / 16] else none
    else
      match b64val c with
      | some vc =>
        if d = '=' then some [va * 4 + vb / 16, vb % 16 * 16 + vc / 4]
        else
          match b64val d with
          | some vd => some [va * 4 + vb / 16, vb % 16 * 16 + vc / 4, vc % 4 * 64 + vd]
          | none => none
      | none => none
  | _, _ => none

def b64groups : List Char → Option (List Nat)
  | [] => some []
  | a :: b :: c :: d :: rest =>
    if rest.isEmpty then decodeGroup a b c d
    else if c = '=' ∨ d = '=' then none
    else
      match decodeGroup a b c d, b64groups rest with
      | some g, some r => some (g ++ r)
      | _, _ => none
  | _ => none

/-- Model of `base64.b64decode` on standard-alphabet input: characters
outside the alphabet are discarded, then 4-character groups are decoded
with `=` padding allowed only in the final group. -/
def b64decode (s : String) : Option (List Nat) :=
  b64groups (s.data.filter (fun c => (b64val c).isSome || c = '='))

def hexDigit (n : Nat) : Char :=
  if n < 10 then Char.ofNat (48 + n) else Char.ofNat (87 + n)

def byteHex (n : Nat) : String :=
  String.mk [hexDigit (n / 16 % 16), hexDigit (n % 16)]

/-- Model of `bytes.hex()`: two lowercase hex digits per byte. -/
def bytesHex (bs : List Nat) : String :=
  String.join (bs.map byteHex)

/-! ## Schema objects -/

/-- `PlistKey.__init__`: records the key text and the optional explicit
`path` attribute; when the latter is absent the key text itself becomes
the path segment. -/
structure PlistKey : Type where
  value : Option String
  path_spec : Option String
deriving DecidableEq

def PlistKey.make (value : Option String) (path_spec : Option String) : PlistKey :=
  { value := value
    path_spec := match path_spec with | none => value | some ps => some ps }

mutual
/-- The `of` field of `OcSchemaElement`: `None`, a single child schema
element, or a list of field schema elements. -/
inductive OcOf : Type where
  | nil
  | one (e : OcSchemaElement)
  | many (es : List OcSchemaElement)

/-- `OcSchemaElement`: schema_type, name, path, size, value, of, def_name,
in the order of the Python dataclass. -/
inductive OcSchemaElement : Type where
  | mk (schema_type : String) (name : Option String) (path : Option (List String))
      (size : Option PyVal) (value : Option String) (of : OcOf)
      (def_name : Option String)
end

def OcSchemaElement.schema_type : OcSchemaElement → String
  | .mk t _ _ _ _ _ _ => t

def OcSchemaElement.name : OcSchemaElement → Option String
  | .mk _ n _ _ _ _ _ => n

def OcSchemaElement.path : OcSchemaElement → Option (List String)
  | .mk _ _ p _ _ _ _ => p

def OcSchemaElement.size : OcSchemaElement → Option PyVal
  | .mk _ _ _ s _ _ _ => s

def OcSchemaElement.value : OcSchemaElement → Option String
  | .mk _ _ _ _ v _ _ => v

def OcSchemaElement.of : OcSchemaElement → OcOf
  | .mk _ _ _ _ _ o _ => o

def OcSchemaElement.def_name : OcSchemaElement → Option String
  | .mk _ _ _ _ _ _ d => d

def OcSchemaElement.with_name (e : OcSchemaElement) (n : Option String) : OcSchemaElement :=
  match e with
  | .mk t _ p s v o d => .mk t n p s v o d

def OcSchemaElement.with_def_name (e : OcSchemaElement) (d : Option String) : OcSchemaElement :=
  match e with
  | .mk t n p s v o _ => .mk t n p s v o d

/-- `OcSchemaElement.set_name`: the deferred field-name assignment; setting
a name twice is the script's only `internal_error`. -/
def OcSchemaElement.set_name (e : OcSchemaElement) (n : String) : Except Err OcSchemaElement :=
  if e.name ≠ none then
    .error (.internal ("name should not get set more than once on OcSchemaElement"))
  else
    .ok (e.with_name (some n))

/-- `parse_elem`'s dynamically typed result: a `PlistKey` (for `<key>`)
or an `OcSchemaElement` (every other tag). -/
inductive ParseRes : Type where
  | key (k : PlistKey)
  | oc (e : OcSchemaElement)

/-- `schema_type` as read off either kind of parse result (the Python code
accesses `.schema_type` on both classes; `PlistKey` always carries
`'key'`). -/
def ParseRes.schema_type : ParseRes → String
  | .key _ => "key"
  | .oc e => e.schema_type

/-! ## Emission into the `h_types` buffer -/

abbrev Buf := List String

def upper_path (path : List String) : String :=
  String.intercalate "_" (path.map pyUpper)

/-- `emit_section_name`: four lines printed to `h_types` for a top-level
section key. -/
def emit_section_name (key : PlistKey) (buf : Buf) : Buf :=
  buf ++ ["/**", "  " ++ pyStr key.value ++ " section", "**/", ""]

/-- `emit_array`: assigns the generated identifier and prints the array's
declaration; `upper_pfx` is the global `upper_prefix`.  A `None` path or a
child (`of`) that is not an `OcSchemaElement` raises in Python
(`TypeError` / `AttributeError`), modelled as `Err.exn`. -/
def emit_array (upper_pfx : String) (elem_array : OcSchemaElement) (context : Option String)
    (buf : Buf) : Except Err (OcSchemaElement × Buf) :=
  let context_type := if context = some "map" then "ENTRY" else "ARRAY"
  match elem_array.path with
  | none => .error (.exn ("TypeError: upper_path of None"))
  | some p =>
    let upath := upper_path p
    let dn := upper_pfx ++ "_" ++ upath ++ "_" ++ context_type
    match elem_array.of with
    | .one child =>
      .ok (elem_array.with_def_name (some dn),
        buf ++ ["#define " ++ dn ++ "_FIELDS(_, __) \\",
                "  OC_ARRAY (" ++ pyStr child.def_name ++ ", _, __)",
                "  OC_DECLARE (" ++ dn ++ ")",
                ""])
    | _ => .error (.exn ("AttributeError: of has no def_name"))

/-- `emit_map`: assigns the generated identifier and prints the map's
declaration. -/
def emit_map (upper_pfx : String) (elem_map : OcSchemaElement) (buf : Buf) :
    Except Err (OcSchemaElement × Buf) :=
  match elem_map.path with
  | none => .error (.exn ("TypeError: upper_path of None"))
  | some p =>
    let upath := upper_path p
    let dn := upper_pfx ++ "_" ++ upath ++ "_MAP"
    match elem_map.of with
    | .one child =>
      .ok (elem_map.with_def_name (some dn),
        buf ++ ["#define " ++ dn ++ "_FIELDS(_, __) \\",
                "  OC_MAP (OC_STRING, " ++ pyStr child.def_name ++ ", _, __)",
                "  OC_DECLARE (" ++ dn ++ ")",
                ""])
    | _ => .error (.exn ("AttributeError: of has no def_name"))

/-! ## `parse_data` -/

/-- Final part of `parse_data` (lines after the byte-length inference):
defaulting of a still-missing type from the presence of `size`, the
`blob`-with-`size` conflict check, the `blob` → `oc_data` rename, and
construction of the schema element. -/
def parse_data_tail (schema_type : Option String) (size : Option PyVal)
    (value : Option String) (path : Option (List String)) : Except Err OcSchemaElement :=
  match schema_type with
  | none =>
    let st := if size = none then "blob" else "uint8"
    let st2 := if st = "blob" then "oc_data" else st
    .ok (OcSchemaElement.mk (pyUpper st2) none path size value .nil none)
  | some st =>
    if st = "blob" ∧ size ≠ none then
      .error (.user ("size attribute not valid with schema_type=\"blob\""))
    else
      let st2 := if st = "blob" then "oc_data" else st
      .ok (OcSchemaElement.mk (pyUpper st2) none path size value .nil none)

/-- `parse_data`: reads the explicit `type`/`size` attributes, decodes the
base64 text if present, and when the text is present and `type` or `size`
is missing runs the byte-length inference. -/
def parse_data (elem : Elem) (path : Option (List String)) : Except Err OcSchemaElement :=
  let schema_type := attrLookup elem.attrib ("type")
  let size : Option PyVal := Option.map PyVal.str (attrLookup elem.attrib ("size"))
  match elem.text with
  | none => parse_data_tail schema_type size none path
  | some data =>
    match b64decode data with
    | none => .error (.exn ("binascii.Error: invalid base64"))
    | some data_bytes =>
      let data_print := some ("0x" ++ bytesHex data_bytes)
      if schema_type = none ∨ size = none then
        let length := data_bytes.length
        let type_from_data :=
          if length = 2 then "uint16"
          else if length = 4 then "uint32"
          else if length = 8 then "uint64"
          else "uint8"
        let size2 :=
          if length ≠ 2 ∧ length ≠ 4 ∧ length ≠ 8 ∧ length ≠ 1 ∧ size = none then
            some (PyVal.int length)
          else size
        let schema_type2 := if schema_type = none then some type_from_data else schema_type
        parse_data_tail schema_type2 size2 data_print path
      else
        parse_data_tail schema_type size data_print path

/-! ## Structural helpers of the tree walk -/

/-- The path-copy-and-append of `parse_elem` (lines 490–495): copy the
incoming path and append the key segment when one is supplied; a `None`
path stays `None`. -/
def newPath (path : Option (List String)) (key : Option String) : Option (List String) :=
  match path with
  | none => none
  | some p =>
    match key with
    | none => some p
    | some k => some (p ++ [k])

/-- `init_dict`: shape validation shared by `<dict>` and
`<dict type="map">`; returns the number of key/value pairs. -/
def init_dict (elem : Elem) (isMap : Bool) : Except Err Nat :=
  let displayName := "<" ++ elem.tag ++ (if isMap then " type=\"map\"" else "") ++ ">"
  let count := elem.children.length
  if count = 0 then .error (.user ("No elements in " ++ displayName))
  else if count % 2 ≠ 0 then
    .error (.user ("Number of nodes in " ++ displayName ++ " must be even"))
  else .ok (count / 2)

/-- `check_key`: the even-position child of a dict must have parsed to a
`PlistKey` (`schema_type == 'key'`); returns it for the caller. -/
def check_key (parentTag : String) (child : ParseRes) (index : Nat) : Except Err PlistKey :=
  if child.schema_type ≠ "key" then
    .error (.user ("<key> required as " ++ (if index = 0 then "first" else "every even") ++
      " element of <" ++ parentTag ++ ">"))
  else
    match child with
    | .key k => .ok k
    | .oc _ => .error (.exn ("unreachable: schema_type key on OcSchemaElement"))

/-- `parse_key`: builds the transient `PlistKey` from a `<key>` element. -/
def parse_key (elem : Elem) : PlistKey :=
  PlistKey.make elem.text (attrLookup elem.attrib ("path"))

/-! ## The recursive walk

`PE` is the type of the recursive parser passed explicitly to the per-tag
parsers (element, path, key segment, context, buffer). -/

abbrev PE := Elem → Option (List String) → Option String → Option String → Buf →
  Except Err (ParseRes × Buf)

/-- `parse_array`: requires at least one child, parses the first child as
the element-type template (passing the array's own path and no key
segment), wraps it in an `OC_ARRAY` node and emits the declaration. -/
def parse_array (pe : PE) (upper_pfx : String) (elem : Elem) (path : Option (List String))
    (context : Option String) (buf : Buf) : Except Err (ParseRes × Buf) :=
  match elem.children with
  | [] => .error (.user ("No template for <array>"))
  | c0 :: _ =>
    match pe c0 path none none buf with
    | .error er => .error er
    | .ok (.key _, _) => .error (.exn ("AttributeError: PlistKey has no def_name"))
    | .ok (.oc child, buf1) =>
      let array := OcSchemaElement.mk ("OC_ARRAY") none path none none (.one child) none
      match emit_array upper_pfx array context buf1 with
      | .error er => .error er
      | .ok (array2, buf2) => .ok (.oc array2, buf2)

/-- `parse_map`: validates the dict shape, parses the first key/value pair
(the value with `context='map'`), and either collapses to the fixed
`OC_ASSOC` node (value of schema_type `OC_DATA`) or wraps the value in an
`OC_MAP` node and emits its declaration. -/
def parse_map (pe : PE) (upper_pfx : String) (elem : Elem) (path : Option (List String))
    (buf : Buf) : Except Err (ParseRes × Buf) :=
  match init_dict elem true with
  | .error er => .error er
  | .ok _count =>
    match elem.children with
    | c0 :: c1 :: _ =>
      match pe c0 path none none buf with
      | .error er => .error er
      | .ok (keyRes, buf1) =>
        match check_key elem.tag keyRes 0 with
        | .error er => .error er
        | .ok _ =>
          match pe c1 path none (some ("map")) buf1 with
          | .error er => .error er
          | .ok (.key _, _) => .error (.exn ("AttributeError: PlistKey has no def_name"))
          | .ok (.oc oc_value, buf2) =>
            if oc_value.schema_type = "OC_DATA" then
              .ok (.oc (OcSchemaElement.mk ("OC_ASSOC") none path none none .nil
                (some ("OC_ASSOC"))), buf2)
            else
              let elem_map := OcSchemaElement.mk ("OC_MAP") none path none none
                (.one oc_value) none
              match emit_map upper_pfx elem_map buf2 with
              | .error er => .error er
              | .ok (elem_map2, buf3) => .ok (.oc elem_map2, buf3)
    | _ => .error (.exn ("IndexError: init_dict guarantees two children"))

/-- The `while` loop of `parse_fields`, two children (one key/value pair)
per iteration; `index` only selects the wording of the `check_key`
message. -/
def parseFieldsLoop (pe : PE) (parentTag : String) (cs : List Elem)
    (path : Option (List String)) (buf : Buf) (index : Nat) :
    Except Err (List OcSchemaElement × Buf) :=
  match cs with
  | [] => .ok ([], buf)
  | ck :: rest =>
    match pe ck path none none buf with
    | .error er => .error er
    | .ok (kres, buf1) =>
      match check_key parentTag kres index with
      | .error er => .error er
      | .ok k =>
        match k.value with
        | none =>
          .error (.user ("<key> tag within <dict> fields template cannot be empty, contents are used as variable name"))
        | some kv =>
          match path with
          | none => .error (.exn ("TypeError: len of None"))
          | some p =>
            let buf2 := if p.length = 0 then emit_section_name k buf1 else buf1
            match rest with
            | [] => .error (.exn ("IndexError: init_dict guarantees an even count"))
            | cv :: rest2 =>
              match pe cv path k.path_spec none buf2 with
              | .error er => .error er
              | .ok (.key _, _) => .error (.exn ("AttributeError: PlistKey has no set_name"))
              | .ok (.oc oc_child, buf3) =>
                match oc_child.set_name kv with
                | .error er => .error er
                | .ok oc_child2 =>
                  match parseFieldsLoop pe parentTag rest2 path buf3 (index + 2) with
                  | .error er => .error er
                  | .ok (fields, buf4) => .ok (oc_child2 :: fields, buf4)

/-- `parse_fields`: a plain `<dict>` becomes an `OC_STRUCT` whose fields
are the loop's (named) child schema elements. -/
def parse_fields (pe : PE) (elem : Elem) (path : Option (List String)) (buf : Buf) :
    Except Err (ParseRes × Buf) :=
  match init_dict elem false with
  | .error er => .error er
  | .ok _count =>
    match parseFieldsLoop pe elem.tag elem.children path buf 0 with
    | .error er => .error er
    | .ok (fields, buf1) =>
      .ok (.oc (OcSchemaElement.mk ("OC_STRUCT") none path none none (.many fields) none), buf1)

/-- `parse_plist`: requires exactly one child and unwraps it. -/
def parse_plist (pe : PE) (elem : Elem) (path : Option (List String)) (buf : Buf) :
    Except Err (ParseRes × Buf) :=
  match elem.children with
  | [c] => pe c path none none buf
  | _ => .error (.user ("Invalid contents for <plist>"))

/-- `parse_elem`: tag dispatch, with the recursion depth bounded by `fuel`
(`Err.fuel` is unreachable for `fuel ≥ sizeOf elem`, see
`parseElem_fuel_sufficient`). -/
def parseElem (upper_pfx : String) : Nat → PE
  | 0 => fun _ _ _ _ _ => .error .fuel
  | fuel + 1 => fun elem path key context buf =>
    let new_path := newPath path key
    if elem.tag = "key" then .ok (.key (parse_key elem), buf)
    else if elem.tag = "true" ∨ elem.tag = "false" then
      .ok (.oc (OcSchemaElement.mk ("BOOLEAN") none new_path none (some elem.tag) .nil none), buf)
    else if elem.tag = "string" then
      .ok (.oc (OcSchemaElement.mk ("OC_STRING") none new_path none elem.text .nil
        (some ("OC_STRING"))), buf)
    else if elem.tag = "integer" then
      .ok (.oc (OcSchemaElement.mk ("UINT32") none new_path none elem.text .nil none), buf)
    else if elem.tag = "data" then
      match parse_data elem new_path with
      | .error er => .error er
      | .ok el => .ok (.oc el, buf)
    else if elem.tag = "array" then
      parse_array (parseElem upper_pfx fuel) upper_pfx elem new_path context buf
    else if elem.tag = "dict" then
      if attrLookup elem.attrib ("type") = some ("map") then
        parse_map (parseElem upper_pfx fuel) upper_pfx elem new_path buf
      else
        parse_fields (parseElem upper_pfx fuel) elem new_path buf
    else if elem.tag = "plist" then
      parse_plist (parseElem upper_pfx fuel) elem new_path buf
    else
      .error (.user ("Unhandled tag:" ++ elem.tag))

/-- The whole run on one document: `parse_elem(root, None, [], None)` with
the uppercased prefix and the initially empty `h_types` buffer, with
always-sufficient fuel. -/
def plistToConfig (camel_pfx : String) (root : Elem) : Except Err (ParseRes × Buf) :=
  parseElem (pyUpper camel_pfx) (Elem.size root) root (some []) none none []


/-! ## Example documents used in the claim theorems -/

def keyElem (t : String) : Elem := Elem.mk ("key") [] (some t) []

def strX : Elem := Elem.mk ("string") [] (some ("x")) []

def arrItems : Elem := Elem.mk ("array") [] none [strX]

/-- `<dict type="map">` with one pair: key `Key`, `<data>` with 8 literal bytes. -/
def docMapData8 : Elem :=
  Elem.mk ("dict") [("type", "map")] none
    [keyElem ("Key"), Elem.mk ("data") [] (some ("AAAAAAAAAAA=")) []]

/-- `<dict type="map">` with one pair: key `Key`, `<data>` with no literal
content and no attributes (an unsized opaque blob). -/
def docMapBlob : Elem :=
  Elem.mk ("dict") [("type", "map")] none [keyElem ("Key"), Elem.mk ("data") [] none []]

/-- Top-level dict with the single field `Items` holding an array of strings. -/
def docItems : Elem := Elem.mk ("dict") [] none [keyElem ("Items"), arrItems]

/-- Top-level dict with two fields both named `Items`, each an array. -/
def docDup : Elem :=
  Elem.mk ("dict") [] none [keyElem ("Items"), arrItems, keyElem ("Items"), arrItems]

/-- Top-level dict with an array field `A` (whose template struct has a
nested array field `B`) followed by a map field `C`. -/
def docOrder : Elem :=
  Elem.mk ("dict") [] none
    [keyElem ("A"),
     Elem.mk ("array") [] none
       [Elem.mk ("dict") [] none [keyElem ("B"), Elem.mk ("array") [] none [strX]]],
     keyElem ("C"),
     Elem.mk ("dict") [("type", "map")] none [keyElem ("K"), strX]]

/-- Dict whose first pair is fine but whose second even-position child is
not a `<key>`, and whose first pair's value has an unhandled tag. -/
def docBadKey : Elem :=
  Elem.mk ("dict") [] none [keyElem ("A"), Elem.mk ("bogus") [] none [], strX, strX]

/-- A `<key>` element with no text. -/
def emptyKey : Elem := Elem.mk ("key") [] none []

/-- `<dict type="map">` whose key element has no text. -/
def mapEmptyKey : Elem := Elem.mk ("dict") [("type", "map")] none [emptyKey, strX]

def BufExt (b b2 : Buf) : Prop := ∃ s, b2 = b ++ s

def ResInv (buf : Buf) (path : Option (List String)) (r : Except Err (ParseRes × Buf)) : Prop :=
  (∀ m, r ≠ .error (.internal m)) ∧
  (∀ res buf2, r = .ok (res, buf2) →
    BufExt buf buf2 ∧ ∀ e2, res = .oc e2 → e2.name = none ∧ e2.path = path)

/-- The recursive parser handed to the per-tag parsers satisfies `ResInv`
at every input. -/
def PeInv (pe : PE) : Prop :=
  ∀ e path key ctx buf, ResInv buf (newPath path key) (pe e path key ctx buf)

/-! ## Basic simp lemmas for the embedding -/

@[simp] theorem Elem.tag_mk (t : String) (a : List (String × String)) (x : Option String)
    (c : List Elem) : (Elem.mk t a x c).tag = t := rfl

@[simp] theorem Elem.attrib_mk (t : String) (a : List (String × String)) (x : Option String)
    (c : List Elem) : (Elem.mk t a x c).attrib = a := rfl

@[simp] theorem Elem.text_mk (t : String) (a : List (String × String)) (x : Option String)
    (c : List Elem) : (Elem.mk t a x c).text = x := rfl

@[simp] theorem Elem.children_mk (t : String) (a : List (String × String)) (x : Option String)
    (c : List Elem) : (Elem.mk t a x c).children = c := rfl

@[simp] theorem OcSchemaElement.schema_type_mk (t : String) (n : Option String)
    (p : Option (List String)) (s : Option PyVal) (v : Option String) (o : OcOf)
    (d : Option String) : (OcSchemaElement.mk t n p s v o d).schema_type = t := rfl

@[simp] theorem OcSchemaElement.name_mk (t : String) (n : Option String)
    (p : Option (List String)) (s : Option PyVal) (v : Option String) (o : OcOf)
    (d : Option String) : (OcSchemaElement.mk t n p s v o d).name = n := rfl

@[simp] theorem OcSchemaElement.path_mk (t : String) (n : Option String)
    (p : Option (List String)) (s : Option PyVal) (v : Option String) (o : OcOf)
    (d : Option String) : (OcSchemaElement.mk t n p s v o d).path = p := rfl

@[simp] theorem OcSchemaElement.size_mk (t : String) (n : Option String)
    (p : Option (List String)) (s : Option PyVal) (v : Option String) (o : OcOf)
    (d : Option String) : (OcSchemaElement.mk t n p s v o d).size = s := rfl

@[simp] theorem OcSchemaElement.value_mk (t : String) (n : Option String)
    (p : Option (List String)) (s : Option PyVal) (v : Option String) (o : OcOf)
    (d : Option String) : (OcSchemaElement.mk t n p s v o d).value = v := rfl

@[simp] theorem OcSchemaElement.of_mk (t : String) (n : Option String)
    (p : Option (List String)) (s : Option PyVal) (v : Option String) (o : OcOf)
    (d : Option String) : (OcSchemaElement.mk t n p s v o d).of = o := rfl

@[simp] theorem OcSchemaElement.def_name_mk (t : String) (n : Option String)
    (p : Option (List String)) (s : Option PyVal) (v : Option String) (o : OcOf)
    (d : Option String) : (OcSchemaElement.mk t n p s v o d).def_name = d := rfl

@[simp] theorem OcSchemaElement.with_name_name (e : OcSchemaElement) (n : Option String) :
    (e.with_name n).name = n := by cases e <;> rfl

@[simp] theorem OcSchemaElement.with_name_path (e : OcSchemaElement) (n : Option String) :
    (e.with_name n).path = e.path := by cases e <;> rfl

@[simp] theorem OcSchemaElement.with_def_name_name (e : OcSchemaElement) (d : Option String) :
    (e.with_def_name d).name = e.name := by cases e <;> rfl

@[simp] theorem OcSchemaElement.with_def_name_path (e : OcSchemaElement) (d : Option String) :
    (e.with_def_name d).path = e.path := by cases e <;> rfl

@[simp] theorem OcSchemaElement.with_def_name_def_name (e : OcSchemaElement) (d : Option String) :
    (e.with_def_name d).def_name = d := by cases e <;> rfl

@[simp] theorem OcSchemaElement.with_def_name_schema_type (e : OcSchemaElement) (d : Option String) :
    (e.with_def_name d).schema_type = e.schema_type := by cases e <;> rfl

@[simp] theorem OcSchemaElement.with_def_name_of (e : OcSchemaElement) (d : Option String) :
    (e.with_def_name d).of = e.of := by cases e <;> rfl

@[simp] theorem ParseRes.schema_type_key (k : PlistKey) :
    (ParseRes.key k).schema_type = "key" := rfl

@[simp] theorem ParseRes.schema_type_oc (e : OcSchemaElement) :
    (ParseRes.oc e).schema_type = e.schema_type := rfl

@[simp] theorem newPath_key_none (path : Option (List String)) : newPath path none = path := by
  cases path <;> rfl

/-! ## Result invariants of the walk

`ResInv buf path r` packages the facts every parser result enjoys: the
script never reports the `internal_error` (that is reserved for
`set_name`, and every freshly built node is unnamed), a successful parse
only appends to the `h_types` buffer, and a successful non-key result is
an unnamed schema element carrying exactly the path the parser was given.
-/

theorem BufExt.refl (b : Buf) : BufExt b b := ⟨[], by simp⟩

theorem BufExt.push (b : Buf) (l : Buf) : BufExt b (b ++ l) := ⟨l, rfl⟩

theorem BufExt.trans (h1 : BufExt b b2) (h2 : BufExt b2 b3) : BufExt b b3 := by
  obtain ⟨s1, rfl⟩ := h1
  obtain ⟨s2, rfl⟩ := h2
  exact ⟨s1 ++ s2, by simp⟩

theorem ResInv.error (buf : Buf) (path : Option (List String)) (er : Err)
    (h : ∀ m, er ≠ .internal m) : ResInv buf path (.error er) := by
  constructor
  · intro m hm
    exact h m (by injection hm)
  · intro res buf2 hm
    cases hm

theorem ResInv.user (buf : Buf) (path : Option (List String)) (m : String) :
    ResInv buf path (.error (.user m)) := ResInv.error buf path _ (by intro m' h; cases h)

theorem ResInv.exn (buf : Buf) (path : Option (List String)) (m : String) :
    ResInv buf path (.error (.exn m)) := ResInv.error buf path _ (by intro m' h; cases h)

theorem ResInv.okKey (buf : Buf) (path : Option (List String)) (k : PlistKey) (buf2 : Buf)
    (hb : BufExt buf buf2) : ResInv buf path (.ok (.key k, buf2)) := by
  constructor
  · intro m hm; cases hm
  · intro res buf3 hm
    injection hm with hm1
    injection hm1 with hres hbuf
    subst hres hbuf
    refine ⟨hb, ?_⟩
    intro e2 he2
    cases he2

theorem ResInv.okOc (buf : Buf) (path : Option (List String)) (e2 : OcSchemaElement) (buf2 : Buf)
    (hb : BufExt buf buf2) (hn : e2.name = none) (hp : e2.path = path) :
    ResInv buf path (.ok (.oc e2, buf2)) := by
  constructor
  · intro m hm; cases hm
  · intro res buf3 hm
    injection hm with hm1
    injection hm1 with hres hbuf
    subst hres hbuf
    refine ⟨hb, ?_⟩
    intro e3 he3
    injection he3 with he3
    subst he3
    exact ⟨hn, hp⟩

theorem emit_array_inv (upper_pfx : String) (a : OcSchemaElement) (ctx : Option String)
    (buf : Buf) :
    (∀ er, emit_array upper_pfx a ctx buf = .error er → ∃ m, er = .exn m) ∧
    (∀ r buf2, emit_array upper_pfx a ctx buf = .ok (r, buf2) →
      BufExt buf buf2 ∧ r.name = a.name ∧ r.path = a.path) := by
  unfold emit_array
  cases hp : a.path with
  | none =>
    constructor
    · intro er her
      simp only at her
      injection her with her
      exact ⟨_, her.symm⟩
    · intro r buf2 hr
      simp only at hr
      cases hr
  | some p =>
    cases ho : a.of with
    | one child =>
      constructor
      · intro er her
        simp only at her
        cases her
      · intro r buf2 hr
        simp only at hr
        injection hr with hr
        injection hr with hr1 hr2
        subst hr1 hr2
        exact ⟨BufExt.push _ _, by simp, by simp [hp]⟩
    | nil =>
      constructor
      · intro er her
        simp only at her
        injection her with her
        exact ⟨_, her.symm⟩
      · intro r buf2 hr
        simp only at hr
        cases hr
    | many es =>
      constructor
      · intro er her
        simp only at her
        injection her with her
        exact ⟨_, her.symm⟩
      · intro r buf2 hr
        simp only at hr
        cases hr

theorem emit_map_inv (upper_pfx : String) (a : OcSchemaElement) (buf : Buf) :
    (∀ er, emit_map upper_pfx a buf = .error er → ∃ m, er = .exn m) ∧
    (∀ r buf2, emit_map upper_pfx a buf = .ok (r, buf2) →
      BufExt buf buf2 ∧ r.name = a.name ∧ r.path = a.path) := by
  unfold emit_map
  cases hp : a.path with
  | none =>
    constructor
    · intro er her
      simp only at her
      injection her with her
      exact ⟨_, her.symm⟩
    · intro r buf2 hr
      simp only at hr
      cases hr
  | some p =>
    cases ho : a.of with
    | one child =>
      constructor
      · intro er her
        simp only at her
        cases her
      · intro r buf2 hr
        simp only at hr
        injection hr with hr
        injection hr with hr1 hr2
        subst hr1 hr2
        exact ⟨BufExt.push _ _, by simp, by simp [hp]⟩
    | nil =>
      constructor
      · intro er her
        simp only at her
        injection her with her
        exact ⟨_, her.symm⟩
      · intro r buf2 hr
        simp only at hr
        cases hr
    | many es =>
      constructor
      · intro er her
        simp only at her
        injection her with her
        exact ⟨_, her.symm⟩
      · intro r buf2 hr
        simp only at hr
        cases hr

theorem parse_data_tail_inv (schema_type : Option String) (size : Option PyVal)
    (value : Option String) (path : Option (List String)) :
    (∀ er, parse_data_tail schema_type size value path = .error er → ∃ m, er = .user m) ∧
    (∀ el, parse_data_tail schema_type size value path = .ok el →
      el.name = none ∧ el.path = path) := by
  unfold parse_data_tail
  cases schema_type with
  | none =>
    constructor
    · intro er her
      simp only at her
      cases her
    · intro el hel
      simp only at hel
      injection hel with hel
      subst hel
      exact ⟨by simp, by simp⟩
  | some st =>
    by_cases hb : st = "blob" ∧ size ≠ none
    · constructor
      · intro er her
        simp only [if_pos hb] at her
        injection her with her
        exact ⟨_, her.symm⟩
      · intro el hel
        simp only [if_pos hb] at hel
        cases hel
    · constructor
      · intro er her
        simp only [if_neg hb] at her
        cases her
      · intro el hel
        simp only [if_neg hb] at hel
        injection hel with hel
        subst hel
        exact ⟨by simp, by simp⟩

theorem parse_data_inv (elem : Elem) (path : Option (List String))
    (r : Except Err OcSchemaElement) (h : parse_data elem path = r) :
    (∀ er, r = .error er → (∃ m, er = .user m) ∨ (∃ m, er = .exn m)) ∧
    (∀ el, r = .ok el → el.name = none ∧ el.path = path) := by
  unfold parse_data at h
  split at h
  · have ht := parse_data_tail_inv (attrLookup elem.attrib ("type"))
      (Option.map PyVal.str (attrLookup elem.attrib ("size"))) none path
    constructor
    · intro er her
      rw [her] at h
      exact Or.inl (ht.1 er h)
    · intro el hel
      rw [hel] at h
      exact ht.2 el h
  · split at h
    · constructor
      · intro er her
        rw [her] at h
        injection h with h
        exact Or.inr ⟨_, h.symm⟩
      · intro el hel
        rw [hel] at h
        cases h
    · dsimp only [] at h
      split at h
      · constructor
        · intro er her
          rw [her] at h
          exact Or.inl ((parse_data_tail_inv _ _ _ _).1 er h)
        · intro el hel
          rw [hel] at h
          exact (parse_data_tail_inv _ _ _ _).2 el h
      · constructor
        · intro er her
          rw [her] at h
          exact Or.inl ((parse_data_tail_inv _ _ _ _).1 er h)
        · intro el hel
          rw [hel] at h
          exact (parse_data_tail_inv _ _ _ _).2 el h

theorem check_key_inv (parentTag : String) (child : ParseRes) (index : Nat) :
    (∀ er, check_key parentTag child index = .error er →
      (∃ m, er = .user m) ∨ (∃ m, er = .exn m)) ∧
    (∀ k, check_key parentTag child index = .ok k → child = .key k) := by
  unfold check_key
  by_cases hs : child.schema_type ≠ "key"
  · constructor
    · intro er her
      simp only [if_pos hs] at her
      injection her with her
      exact Or.inl ⟨_, her.symm⟩
    · intro k hk
      simp only [if_pos hs] at hk
      cases hk
  · cases child with
    | key k =>
      constructor
      · intro er her
        simp only [if_neg hs] at her
        cases her
      · intro k2 hk
        simp only [if_neg hs] at hk
        injection hk with hk
        subst hk
        rfl
    | oc e =>
      constructor
      · intro er her
        simp only [if_neg hs] at her
        injection her with her
        exact Or.inr ⟨_, her.symm⟩
      · intro k hk
        simp only [if_neg hs] at hk
        cases hk

theorem set_name_of_none (e : OcSchemaElement) (n : String) (h : e.name = none) :
    e.set_name n = .ok (e.with_name (some n)) := by
  unfold OcSchemaElement.set_name
  simp [h]

theorem parse_array_inv (pe : PE) (Hpe : PeInv pe) (upper_pfx : String) (e : Elem)
    (path : Option (List String)) (ctx : Option String) (buf : Buf)
    (r : Except Err (ParseRes × Buf)) (h : parse_array pe upper_pfx e path ctx buf = r) :
    ResInv buf path r := by
  unfold parse_array at h
  split at h
  · subst h
    exact ResInv.user _ _ _
  · split at h
    next er heq =>
      subst h
      refine ResInv.error _ _ _ ?_
      intro m hm
      subst hm
      exact (Hpe _ _ _ _ _).1 m heq
    next heq =>
      subst h
      exact ResInv.exn _ _ _
    next child buf1 heq =>
      dsimp only [] at h
      split at h
      next er heq2 =>
        subst h
        refine ResInv.error _ _ _ ?_
        intro m hm
        subst hm
        obtain ⟨m2, hm2⟩ := (emit_array_inv _ _ _ _).1 _ heq2
        cases hm2
      next array2 buf2 heq2 =>
        subst h
        obtain ⟨hb2, hn2, hp2⟩ := (emit_array_inv _ _ _ _).2 _ _ heq2
        have h1 := ((Hpe _ _ _ _ _).2 _ _ heq).1
        simp only [newPath_key_none] at h1
        refine ResInv.okOc _ _ _ _ (h1.trans hb2) ?_ ?_
        · rw [hn2]; simp
        · rw [hp2]; simp

theorem init_dict_err (elem : Elem) (isMap : Bool) (er : Err)
    (h : init_dict elem isMap = .error er) : ∃ m, er = .user m := by
  unfold init_dict at h
  dsimp only [] at h
  split at h
  · injection h with h
    exact ⟨_, h.symm⟩
  · split at h
    · injection h with h
      exact ⟨_, h.symm⟩
    · cases h

theorem parse_map_inv (pe : PE) (Hpe : PeInv pe) (upper_pfx : String) (e : Elem)
    (path : Option (List String)) (buf : Buf)
    (r : Except Err (ParseRes × Buf)) (h : parse_map pe upper_pfx e path buf = r) :
    ResInv buf path r := by
  unfold parse_map at h
  split at h
  next er heq0 =>
    subst h
    refine ResInv.error _ _ _ ?_
    intro m hm
    subst hm
    obtain ⟨m2, hm2⟩ := init_dict_err _ _ _ heq0
    cases hm2
  next count heq0 =>
    split at h
    next c0 c1 rest =>
      split at h
      next er heq1 =>
        subst h
        refine ResInv.error _ _ _ ?_
        intro m hm
        subst hm
        exact (Hpe _ _ _ _ _).1 m heq1
      next keyRes buf1 heq1 =>
        split at h
        next er heq2 =>
          subst h
          refine ResInv.error _ _ _ ?_
          intro m hm
          subst hm
          rcases (check_key_inv _ _ _).1 _ heq2 with ⟨m2, hm2⟩ | ⟨m2, hm2⟩
          · cases hm2
          · cases hm2
        next k heq2 =>
          split at h
          next er heq3 =>
            subst h
            refine ResInv.error _ _ _ ?_
            intro m hm
            subst hm
            exact (Hpe _ _ _ _ _).1 m heq3
          next heq3 =>
            subst h
            exact ResInv.exn _ _ _
          next oc_value buf2 heq3 =>
            split at h
            · subst h
              refine ResInv.okOc _ _ _ _ ?_ (by simp) (by simp)
              have h1 := ((Hpe _ _ _ _ _).2 _ _ heq1).1
              have h2 := ((Hpe _ _ _ _ _).2 _ _ heq3).1
              exact h1.trans h2
            · dsimp only [] at h
              split at h
              next er heq4 =>
                subst h
                refine ResInv.error _ _ _ ?_
                intro m hm
                subst hm
                obtain ⟨m2, hm2⟩ := (emit_map_inv _ _ _).1 _ heq4
                cases hm2
              next elem_map2 buf3 heq4 =>
                subst h
                obtain ⟨hb3, hn3, hp3⟩ := (emit_map_inv _ _ _).2 _ _ heq4
                have h1 := ((Hpe _ _ _ _ _).2 _ _ heq1).1
                have h2 := ((Hpe _ _ _ _ _).2 _ _ heq3).1
                refine ResInv.okOc _ _ _ _ ((h1.trans h2).trans hb3) ?_ ?_
                · rw [hn3]; simp
                · rw [hp3]; simp
    next hne =>
      subst h
      exact ResInv.exn _ _ _

theorem BufExt_ite (c : Prop) [Decidable c] (k : PlistKey) (b : Buf) :
    BufExt b (if c then emit_section_name k b else b) := by
  split
  · exact BufExt.push _ _
  · exact BufExt.refl _

theorem parseFieldsLoop_inv (pe : PE) (Hpe : PeInv pe) (parentTag : String) (n : Nat) :
    ∀ (cs : List Elem) (path : Option (List String)) (buf : Buf) (idx : Nat)
      (r : Except Err (List OcSchemaElement × Buf)),
      cs.length ≤ n → parseFieldsLoop pe parentTag cs path buf idx = r →
      (∀ m, r ≠ .error (.internal m)) ∧
      (∀ fs buf2, r = .ok (fs, buf2) → BufExt buf buf2) := by
  induction n with
  | zero =>
    intro cs path buf idx r hlen h
    have hnil : cs = [] := List.eq_nil_of_length_eq_zero (Nat.le_zero.mp hlen)
    subst hnil
    unfold parseFieldsLoop at h
    subst h
    constructor
    · intro m hm
      cases hm
    · intro fs buf2 hm
      injection hm with hm1
      injection hm1 with hfs hbuf
      subst hbuf
      exact BufExt.refl _
  | succ n ih =>
    intro cs path buf idx r hlen h
    cases cs with
    | nil =>
      unfold parseFieldsLoop at h
      subst h
      constructor
      · intro m hm
        cases hm
      · intro fs buf2 hm
        injection hm with hm1
        injection hm1 with hfs hbuf
        subst hbuf
        exact BufExt.refl _
    | cons ck rest =>
      unfold parseFieldsLoop at h
      split at h
      next er heq1 =>
        subst h
        constructor
        · intro m hm
          injection hm with hm
          subst hm
          exact (Hpe _ _ _ _ _).1 m heq1
        · intro fs buf2 hm
          cases hm
      next kres buf1 heq1 =>
        split at h
        next er heq2 =>
          subst h
          constructor
          · intro m hm
            injection hm with hm
            subst hm
            rcases (check_key_inv _ _ _).1 _ heq2 with ⟨m2, hm2⟩ | ⟨m2, hm2⟩
            · cases hm2
            · cases hm2
          · intro fs buf2 hm
            cases hm
        next k heq2 =>
          split at h
          · subst h
            constructor
            · intro m hm
              cases hm
            · intro fs buf2 hm
              cases hm
          next kv hkv =>
            split at h
            · subst h
              constructor
              · intro m hm
                cases hm
              · intro fs buf2 hm
                cases hm
            next p =>
              dsimp only [] at h
              split at h
              · subst h
                constructor
                · intro m hm
                  cases hm
                · intro fs buf2 hm
                  cases hm
              next cv rest2 =>
                split at h
                next er heq3 =>
                  subst h
                  constructor
                  · intro m hm
                    injection hm with hm
                    subst hm
                    exact (Hpe _ _ _ _ _).1 m heq3
                  · intro fs buf2 hm
                    cases hm
                next heq3 =>
                  subst h
                  constructor
                  · intro m hm
                    cases hm
                  · intro fs buf2 hm
                    cases hm
                next oc_child buf3 heq3 =>
                  have hname : oc_child.name = none :=
                    (((Hpe _ _ _ _ _).2 _ _ heq3).2 _ rfl).1
                  split at h
                  next er heq4 =>
                    rw [set_name_of_none _ _ hname] at heq4
                    cases heq4
                  next oc_child2 heq4 =>
                    split at h
                    next er heq5 =>
                      subst h
                      constructor
                      · intro m hm
                        injection hm with hm
                        subst hm
                        have hlen2 : rest2.length ≤ n := by
                          simp only [List.length_cons] at hlen
                          omega
                        exact (ih rest2 (some p) buf3 (idx + 2) _ hlen2 heq5).1 m rfl
                      · intro fs buf2 hm
                        cases hm
                    next fields buf4 heq5 =>
                      subst h
                      constructor
                      · intro m hm
                        cases hm
                      · intro fs buf2 hm
                        injection hm with hm1
                        injection hm1 with hfs hbuf
                        subst hbuf
                        have hb1 : BufExt buf buf1 := ((Hpe _ _ _ _ _).2 _ _ heq1).1
                        have hb2 : BufExt buf1
                            (if p.length = 0 then emit_section_name k buf1 else buf1) :=
                          BufExt_ite _ _ _
                        have hb3 : BufExt
                            (if p.length = 0 then emit_section_name k buf1 else buf1) buf3 :=
                          ((Hpe _ _ _ _ _).2 _ _ heq3).1
                        have hlen2 : rest2.length ≤ n := by
                          simp only [List.length_cons] at hlen
                          omega
                        exact ((hb1.trans hb2).trans hb3).trans
                          ((ih rest2 (some p) buf3 (idx + 2) _ hlen2 heq5).2 _ _ rfl)

theorem parse_fields_inv (pe : PE) (Hpe : PeInv pe) (e : Elem)
    (path : Option (List String)) (buf : Buf)
    (r : Except Err (ParseRes × Buf)) (h : parse_fields pe e path buf = r) :
    ResInv buf path r := by
  unfold parse_fields at h
  split at h
  next er heq0 =>
    subst h
    refine ResInv.error _ _ _ ?_
    intro m hm
    subst hm
    obtain ⟨m2, hm2⟩ := init_dict_err _ _ _ heq0
    cases hm2
  next count heq0 =>
    split at h
    next er heq1 =>
      subst h
      refine ResInv.error _ _ _ ?_
      intro m hm
      subst hm
      exact (parseFieldsLoop_inv pe Hpe e.tag e.children.length e.children path buf 0 _
        (le_refl _) heq1).1 m rfl
    next fields buf1 heq1 =>
      subst h
      refine ResInv.okOc _ _ _ _ ?_ (by simp) (by simp)
      exact (parseFieldsLoop_inv pe Hpe e.tag e.children.length e.children path buf 0 _
        (le_refl _) heq1).2 _ _ rfl

theorem parse_plist_inv (pe : PE) (Hpe : PeInv pe) (e : Elem)
    (path : Option (List String)) (buf : Buf)
    (r : Except Err (ParseRes × Buf)) (h : parse_plist pe e path buf = r) :
    ResInv buf path r := by
  unfold parse_plist at h
  split at h
  next c heq =>
    have := Hpe c path none none buf
    simp only [newPath_key_none] at this
    rw [h] at this
    exact this
  next hne =>
    subst h
    exact ResInv.user _ _ _

theorem parseElem_inv_aux (upper_pfx : String) (fuel : Nat) :
    ∀ (e : Elem) (path : Option (List String)) (key : Option String) (ctx : Option String)
      (buf : Buf) (r : Except Err (ParseRes × Buf)),
      parseElem upper_pfx fuel e path key ctx buf = r →
      ResInv buf (newPath path key) r := by
  induction fuel with
  | zero =>
    intro e path key ctx buf r h
    unfold parseElem at h
    subst h
    refine ResInv.error _ _ _ ?_
    intro m hm
    cases hm
  | succ fuel ih =>
    have Hpe : PeInv (parseElem upper_pfx fuel) := by
      intro e path key ctx buf
      exact ih e path key ctx buf _ rfl
    intro e path key ctx buf r h
    unfold parseElem at h
    dsimp only [] at h
    split at h
    · subst h
      exact ResInv.okKey _ _ _ _ (BufExt.refl _)
    · split at h
      · subst h
        exact ResInv.okOc _ _ _ _ (BufExt.refl _) (by simp) (by simp)
      · split at h
        · subst h
          exact ResInv.okOc _ _ _ _ (BufExt.refl _) (by simp) (by simp)
        · split at h
          · subst h
            exact ResInv.okOc _ _ _ _ (BufExt.refl _) (by simp) (by simp)
          · split at h
            · split at h
              next er heq =>
                subst h
                refine ResInv.error _ _ _ ?_
                intro m hm
                subst hm
                rcases (parse_data_inv _ _ _ heq).1 _ rfl with ⟨m2, hm2⟩ | ⟨m2, hm2⟩
                · cases hm2
                · cases hm2
              next el heq =>
                subst h
                obtain ⟨hn, hp⟩ := (parse_data_inv _ _ _ heq).2 _ rfl
                exact ResInv.okOc _ _ _ _ (BufExt.refl _) hn hp
            · split at h
              · exact parse_array_inv _ Hpe _ _ _ _ _ _ h
              · split at h
                · split at h
                  · exact parse_map_inv _ Hpe _ _ _ _ _ h
                  · exact parse_fields_inv _ Hpe _ _ _ _ h
                · split at h
                  · exact parse_plist_inv _ Hpe _ _ _ _ h
                  · subst h
                    exact ResInv.user _ _ _

/-- Every result of the walk satisfies the invariant: no `internal_error`,
buffer growth by appending only, and fresh unnamed nodes carrying the
extended path. -/
theorem parseElem_inv (upper_pfx : String) (fuel : Nat) :
    PeInv (parseElem upper_pfx fuel) := by
  intro e path key ctx buf
  exact parseElem_inv_aux upper_pfx fuel e path key ctx buf _ rfl

/-! ## Fuel sufficiency

`Err.fuel` is an artefact of the embedding; with `Elem.size` of the root
as fuel (as `plistToConfig` supplies) it can never occur. -/

theorem Elem.size_le_sizeList (c : Elem) (cs : List Elem) (h : c ∈ cs) :
    Elem.size c ≤ Elem.sizeList cs := by
  induction cs with
  | nil => cases h
  | cons c2 cs2 ih =>
    unfold Elem.sizeList
    rcases List.mem_cons.mp h with h1 | h1
    · subst h1
      omega
    · have := ih h1
      omega

theorem Elem.sizeList_children_lt (e : Elem) :
    Elem.sizeList e.children + 1 = Elem.size e := by
  cases e
  unfold Elem.size
  simp
  omega

theorem emit_array_no_fuel (upper_pfx : String) (a : OcSchemaElement) (ctx : Option String)
    (buf : Buf) : emit_array upper_pfx a ctx buf ≠ .error .fuel := by
  intro h
  obtain ⟨m, hm⟩ := (emit_array_inv upper_pfx a ctx buf).1 _ h
  cases hm

theorem emit_map_no_fuel (upper_pfx : String) (a : OcSchemaElement) (buf : Buf) :
    emit_map upper_pfx a buf ≠ .error .fuel := by
  intro h
  obtain ⟨m, hm⟩ := (emit_map_inv upper_pfx a buf).1 _ h
  cases hm

theorem parse_array_no_fuel (pe : PE) (upper_pfx : String) (e : Elem)
    (path : Option (List String)) (ctx : Option String) (buf : Buf)
    (Hpe : ∀ c, c ∈ e.children → ∀ path2 key2 ctx2 buf2,
      pe c path2 key2 ctx2 buf2 ≠ .error .fuel) :
    parse_array pe upper_pfx e path ctx buf ≠ .error .fuel := by
  intro h
  unfold parse_array at h
  split at h
  · cases h
  next c0 cs hc =>
    split at h
    next er heq =>
      injection h with h
      subst h
      exact Hpe c0 (by rw [hc]; exact List.mem_cons_self _ _) _ _ _ _ heq
    next heq =>
      cases h
    next child buf1 heq =>
      dsimp only [] at h
      split at h
      next er heq2 =>
        injection h with h
        subst h
        exact emit_array_no_fuel _ _ _ _ heq2
      next heq2 =>
        cases h

theorem parse_map_no_fuel (pe : PE) (upper_pfx : String) (e : Elem)
    (path : Option (List String)) (buf : Buf)
    (Hpe : ∀ c, c ∈ e.children → ∀ path2 key2 ctx2 buf2,
      pe c path2 key2 ctx2 buf2 ≠ .error .fuel) :
    parse_map pe upper_pfx e path buf ≠ .error .fuel := by
  intro h
  unfold parse_map at h
  split at h
  next er heq0 =>
    injection h with h
    subst h
    obtain ⟨m, hm⟩ := init_dict_err _ _ _ heq0
    cases hm
  next count heq0 =>
    split at h
    next c0 c1 rest hc =>
      split at h
      next er heq1 =>
        injection h with h
        subst h
        exact Hpe c0 (by rw [hc]; exact List.mem_cons_self _ _) _ _ _ _ heq1
      next keyRes buf1 heq1 =>
        split at h
        next er heq2 =>
          injection h with h
          subst h
          rcases (check_key_inv _ _ _).1 _ heq2 with ⟨m, hm⟩ | ⟨m, hm⟩
          · cases hm
          · cases hm
        next k heq2 =>
          split at h
          next er heq3 =>
            injection h with h
            subst h
            exact Hpe c1 (by rw [hc]; exact List.mem_cons_of_mem _ (List.mem_cons_self _ _))
              _ _ _ _ heq3
          next heq3 =>
            cases h
          next oc_value buf2 heq3 =>
            split at h
            · cases h
            · dsimp only [] at h
              split at h
              next er heq4 =>
                injection h with h
                subst h
                exact emit_map_no_fuel _ _ _ heq4
              next heq4 =>
                cases h
    next hne =>
      cases h

theorem parseFieldsLoop_no_fuel (pe : PE) (parentTag : String) (n : Nat) :
    ∀ (cs : List Elem) (path : Option (List String)) (buf : Buf) (idx : Nat),
      cs.length ≤ n →
      (∀ c, c ∈ cs → ∀ path2 key2 ctx2 buf2, pe c path2 key2 ctx2 buf2 ≠ .error .fuel) →
      parseFieldsLoop pe parentTag cs path buf idx ≠ .error .fuel := by
  induction n with
  | zero =>
    intro cs path buf idx hlen Hpe h
    have hnil : cs = [] := List.eq_nil_of_length_eq_zero (Nat.le_zero.mp hlen)
    subst hnil
    unfold parseFieldsLoop at h
    cases h
  | succ n ih =>
    intro cs path buf idx hlen Hpe h
    cases cs with
    | nil =>
      unfold parseFieldsLoop at h
      cases h
    | cons ck rest =>
      unfold parseFieldsLoop at h
      split at h
      next er heq1 =>
        injection h with h
        subst h
        exact Hpe ck (List.mem_cons_self _ _) _ _ _ _ heq1
      next kres buf1 heq1 =>
        split at h
        next er heq2 =>
          injection h with h
          subst h
          rcases (check_key_inv _ _ _).1 _ heq2 with ⟨m, hm⟩ | ⟨m, hm⟩
          · cases hm
          · cases hm
        next k heq2 =>
          split at h
          · cases h
          next kv hkv =>
            split at h
            · cases h
            next p =>
              dsimp only [] at h
              split at h
              · cases h
              next cv rest2 =>
                split at h
                next er heq3 =>
                  injection h with h
                  subst h
                  exact Hpe cv (List.mem_cons_of_mem _ (List.mem_cons_self _ _)) _ _ _ _ heq3
                next heq3 =>
                  cases h
                next oc_child buf3 heq3 =>
                  split at h
                  next er heq4 =>
                    injection h with h
                    subst h
                    unfold OcSchemaElement.set_name at heq4
                    split at heq4
                    · cases heq4
                    · cases heq4
                  next oc_child2 heq4 =>
                    split at h
                    next er heq5 =>
                      injection h with h
                      subst h
                      refine ih rest2 (some p) buf3 (idx + 2) ?_ ?_ heq5
                      · simp only [List.length_cons] at hlen
                        omega
                      · intro c hc path2 key2 ctx2 buf2
                        exact Hpe c
                          (List.mem_cons_of_mem _ (List.mem_cons_of_mem _ hc)) _ _ _ _
                    next heq5 =>
                      cases h

theorem parse_fields_no_fuel (pe : PE) (e : Elem) (path : Option (List String)) (buf : Buf)
    (Hpe : ∀ c, c ∈ e.children → ∀ path2 key2 ctx2 buf2,
      pe c path2 key2 ctx2 buf2 ≠ .error .fuel) :
    parse_fields pe e path buf ≠ .error .fuel := by
  intro h
  unfold parse_fields at h
  split at h
  next er heq0 =>
    injection h with h
    subst h
    obtain ⟨m, hm⟩ := init_dict_err _ _ _ heq0
    cases hm
  next count heq0 =>
    split at h
    next er heq1 =>
      injection h with h
      subst h
      exact parseFieldsLoop_no_fuel pe e.tag e.children.length e.children path buf 0
        (le_refl _) Hpe heq1
    next fields buf1 heq1 =>
      cases h

theorem parse_plist_no_fuel (pe : PE) (e : Elem) (path : Option (List String)) (buf : Buf)
    (Hpe : ∀ c, c ∈ e.children → ∀ path2 key2 ctx2 buf2,
      pe c path2 key2 ctx2 buf2 ≠ .error .fuel) :
    parse_plist pe e path buf ≠ .error .fuel := by
  intro h
  unfold parse_plist at h
  split at h
  next c heq =>
    exact Hpe c (by rw [heq]; exact List.mem_cons_self _ _) _ _ _ _ h
  next hne =>
    cases h

/-- With fuel at least `Elem.size` of the element, the embedding's fuel
error cannot occur: the parser behaves exactly like the script's
unbounded recursion. -/
theorem parseElem_no_fuel (upper_pfx : String) :
    ∀ (fuel : Nat) (e : Elem) (path : Option (List String)) (key : Option String)
      (ctx : Option String) (buf : Buf), Elem.size e ≤ fuel →
      parseElem upper_pfx fuel e path key ctx buf ≠ .error .fuel := by
  intro fuel
  induction fuel with
  | zero =>
    intro e path key ctx buf hs
    have : 1 ≤ Elem.size e := by
      cases e
      unfold Elem.size
      omega
    omega
  | succ fuel ih =>
    intro e path key ctx buf hs h
    have Hpe : ∀ c, c ∈ e.children → ∀ path2 key2 ctx2 buf2,
        parseElem upper_pfx fuel c path2 key2 ctx2 buf2 ≠ .error .fuel := by
      intro c hc path2 key2 ctx2 buf2
      refine ih c path2 key2 ctx2 buf2 ?_
      have h1 := Elem.size_le_sizeList c e.children hc
      have h2 := Elem.sizeList_children_lt e
      omega
    unfold parseElem at h
    dsimp only [] at h
    split at h
    · cases h
    · split at h
      · cases h
      · split at h
        · cases h
        · split at h
          · cases h
          · split at h
            · split at h
              next er heq =>
                injection h with h
                subst h
                rcases (parse_data_inv _ _ _ heq).1 _ rfl with ⟨m, hm⟩ | ⟨m, hm⟩
                · cases hm
                · cases hm
              next el heq =>
                cases h
            · split at h
              · exact parse_array_no_fuel _ _ _ _ _ _ Hpe h
              · split at h
                · split at h
                  · exact parse_map_no_fuel _ _ _ _ _ Hpe h
                  · exact parse_fields_no_fuel _ _ _ _ Hpe h
                · split at h
                  · exact parse_plist_no_fuel _ _ _ _ Hpe h
                  · cases h

/-! ## Exact characterization of successful emission -/

theorem pyUpper_uint8 : pyUpper ("uint8") = "UINT8" := rfl

theorem pyUpper_uint16 : pyUpper ("uint16") = "UINT16" := rfl

theorem pyUpper_uint32 : pyUpper ("uint32") = "UINT32" := rfl

theorem pyUpper_uint64 : pyUpper ("uint64") = "UINT64" := rfl

theorem pyUpper_oc_data : pyUpper ("oc_data") = "OC_DATA" := rfl

theorem emit_array_ok (upper_pfx : String) (a : OcSchemaElement) (ctx : Option String)
    (buf : Buf) (p : List String) (ch : OcSchemaElement)
    (hp : a.path = some p) (ho : a.of = .one ch) :
    emit_array upper_pfx a ctx buf =
      .ok (a.with_def_name (some (upper_pfx ++ "_" ++ upper_path p ++ "_" ++
          (if ctx = some "map" then "ENTRY" else "ARRAY"))),
        buf ++ ["#define " ++ (upper_pfx ++ "_" ++ upper_path p ++ "_" ++
                  (if ctx = some "map" then "ENTRY" else "ARRAY")) ++ "_FIELDS(_, __) \\",
                "  OC_ARRAY (" ++ pyStr ch.def_name ++ ", _, __)",
                "  OC_DECLARE (" ++ (upper_pfx ++ "_" ++ upper_path p ++ "_" ++
                  (if ctx = some "map" then "ENTRY" else "ARRAY")) ++ ")",
                ""]) := by
  unfold emit_array
  rw [hp, ho]

theorem emit_map_ok (upper_pfx : String) (a : OcSchemaElement) (buf : Buf)
    (p : List String) (ch : OcSchemaElement) (hp : a.path = some p) (ho : a.of = .one ch) :
    emit_map upper_pfx a buf =
      .ok (a.with_def_name (some (upper_pfx ++ "_" ++ upper_path p ++ "_MAP")),
        buf ++ ["#define " ++ (upper_pfx ++ "_" ++ upper_path p ++ "_MAP") ++ "_FIELDS(_, __) \\",
                "  OC_MAP (OC_STRING, " ++ pyStr ch.def_name ++ ", _, __)",
                "  OC_DECLARE (" ++ (upper_pfx ++ "_" ++ upper_path p ++ "_MAP") ++ ")",
                ""]) := by
  unfold emit_map
  rw [hp, ho]

/-! ## Claim C3 -/

/-- Claim C3 (confirmed): for a `<data>` element with no explicit `type`
and no explicit `size` attribute and literal base64 content present,
decoded length 2 infers `UINT16`, 4 infers `UINT32`, 8 infers `UINT64`,
1 infers a bare `UINT8` with no size, and any other length infers `UINT8`
with inferred size equal to the decoded byte length. -/
theorem C3_length_inference (elem : Elem) (path : Option (List String)) (s : String)
    (bs : List Nat)
    (h1 : attrLookup elem.attrib ("type") = none)
    (h2 : attrLookup elem.attrib ("size") = none)
    (h3 : elem.text = some s)
    (h4 : b64decode s = some bs) :
    parse_data elem path =
      .ok (OcSchemaElement.mk
        (if bs.length = 2 then "UINT16"
         else if bs.length = 4 then "UINT32"
         else if bs.length = 8 then "UINT64"
         else "UINT8")
        none path
        (if bs.length = 2 ∨ bs.length = 4 ∨ bs.length = 8 ∨ bs.length = 1 then none
         else some (PyVal.int bs.length))
        (some ("0x" ++ bytesHex bs)) .nil none) := by
  by_cases hl2 : bs.length = 2
  · simp [parse_data, parse_data_tail, h1, h2, h3, h4, hl2, pyUpper_uint16]
  · by_cases hl4 : bs.length = 4
    · simp [parse_data, parse_data_tail, h1, h2, h3, h4, hl2, hl4, pyUpper_uint32]
    · by_cases hl8 : bs.length = 8
      · simp [parse_data, parse_data_tail, h1, h2, h3, h4, hl2, hl4, hl8, pyUpper_uint64]
      · by_cases hl1 : bs.length = 1
        · simp [parse_data, parse_data_tail, h1, h2, h3, h4, hl2, hl4, hl8, hl1, pyUpper_uint8]
        · simp [parse_data, parse_data_tail, h1, h2, h3, h4, hl2, hl4, hl8, hl1, pyUpper_uint8]

/-- Witness for C3 at a concrete input: `AAAA` decodes to 3 bytes, so the
inferred kind is `UINT8` with inferred size 3. -/
theorem C3_length_inference_witness :
    parse_data (Elem.mk ("data") [] (some ("AAAA")) []) (some []) =
      .ok (OcSchemaElement.mk ("UINT8") none (some []) (some (PyVal.int 3))
        (some ("0x000000")) .nil none) := by
  have h := C3_length_inference (Elem.mk ("data") [] (some ("AAAA")) []) (some [])
    ("AAAA") [0, 0, 0] rfl rfl rfl rfl
  exact h

/-! ## Claim C2 -/

/-- Counterexample to claim C2: an explicit `type="blob"` with 3 bytes of
literal data and no explicit `size` attribute does not succeed as an
unsized Blob — the byte-length inference still runs (it is skipped only
when both attributes are present), sets `size = 3`, and the run aborts
with the blob/size conflict error. -/
theorem C2_counterexample :
    parse_data (Elem.mk ("data") [("type", "blob")] (some ("AAAA")) []) (some []) =
      .error (.user ("size attribute not valid with schema_type=\"blob\"")) := by rfl

/-- Claim C2 as amended: the byte-length inference is skipped only when
both explicit `type` and `size` are present, in which case the result is
exactly the explicit attributes (or the blob/size conflict error for
`type="blob"`).  An explicit `type` alone prevents only type inference:
literal data whose length is not 1, 2, 4 or 8 still gets the inferred
size, which for any non-blob type sets a size the user did not declare
and for `type="blob"` aborts with the conflict error; `type="blob"`
with no size succeeds as an unsized opaque blob only for literal lengths
1, 2, 4, 8 (or no literal data at all). -/
theorem C2_explicit_attrs :
    (∀ (elem : Elem) (path : Option (List String)) (t sz s : String) (bs : List Nat),
      attrLookup elem.attrib ("type") = some t →
      attrLookup elem.attrib ("size") = some sz →
      elem.text = some s → b64decode s = some bs →
      parse_data elem path =
        (if t = "blob" then
          .error (.user ("size attribute not valid with schema_type=\"blob\""))
        else
          .ok (OcSchemaElement.mk (pyUpper t) none path (some (PyVal.str sz))
            (some ("0x" ++ bytesHex bs)) .nil none))) ∧
    (∀ (elem : Elem) (path : Option (List String)) (s : String) (bs : List Nat),
      attrLookup elem.attrib ("type") = some ("blob") →
      attrLookup elem.attrib ("size") = none →
      elem.text = some s → b64decode s = some bs →
      ((bs.length = 1 ∨ bs.length = 2 ∨ bs.length = 4 ∨ bs.length = 8) →
        parse_data elem path =
          .ok (OcSchemaElement.mk ("OC_DATA") none path none
            (some ("0x" ++ bytesHex bs)) .nil none)) ∧
      ((bs.length ≠ 1 ∧ bs.length ≠ 2 ∧ bs.length ≠ 4 ∧ bs.length ≠ 8) →
        parse_data elem path =
          .error (.user ("size attribute not valid with schema_type=\"blob\"")))) ∧
    (∀ (elem : Elem) (path : Option (List String)) (t s : String) (bs : List Nat),
      attrLookup elem.attrib ("type") = some t → t ≠ "blob" →
      attrLookup elem.attrib ("size") = none →
      elem.text = some s → b64decode s = some bs →
      (bs.length ≠ 1 ∧ bs.length ≠ 2 ∧ bs.length ≠ 4 ∧ bs.length ≠ 8) →
      parse_data elem path =
        .ok (OcSchemaElement.mk (pyUpper t) none path (some (PyVal.int bs.length))
          (some ("0x" ++ bytesHex bs)) .nil none)) := by
  refine ⟨?_, ?_, ?_⟩
  · intro elem path t sz s bs h1 h2 h3 h4
    by_cases hb : t = "blob"
    · subst hb
      simp [parse_data, parse_data_tail, h1, h2, h3, h4]
    · simp [parse_data, parse_data_tail, h1, h2, h3, h4, hb]
  · intro elem path s bs h1 h2 h3 h4
    constructor
    · intro hl
      rcases hl with hl | hl | hl | hl <;>
        simp [parse_data, parse_data_tail, h1, h2, h3, h4, hl, pyUpper_oc_data]
    · intro ⟨hl1, hl2, hl4, hl8⟩
      simp [parse_data, parse_data_tail, h1, h2, h3, h4, hl1, hl2, hl4, hl8]
  · intro elem path t s bs h1 hb h2 h3 h4 ⟨hl1, hl2, hl4, hl8⟩
    simp [parse_data, parse_data_tail, h1, h2, h3, h4, hb, hl1, hl2, hl4, hl8]

/-- Witness for the amended C2 at a concrete input: explicit
`type="uint8"` and `size="16"` with 3 bytes of literal data keep exactly
the explicit attributes (no inferred size). -/
theorem C2_explicit_attrs_witness :
    parse_data (Elem.mk ("data") [("type", "uint8"), ("size", "16")] (some ("AAAA")) [])
        (some []) =
      .ok (OcSchemaElement.mk ("UINT8") none (some []) (some (PyVal.str ("16")))
        (some ("0x000000")) .nil none) := by
  have h := C2_explicit_attrs.1 (Elem.mk ("data") [("type", "uint8"), ("size", "16")]
    (some ("AAAA")) []) (some []) ("uint8") ("16") ("AAAA") [0, 0, 0] rfl rfl rfl rfl
  exact h

/-! ## Claim C1 -/

/-- Counterexample to claim C1: a `<dict type="map">` whose single value is
a `<data>` with 8 bytes of literal content and no attributes does not
collapse to the fixed `OC_ASSOC` kind — the 8-byte inference makes the
value a `UINT64` (not an `OC_DATA` blob), so the builder produces a
declared `OC_MAP` and emits a Map declaration. -/
theorem C1_counterexample :
    (plistToConfig ("Oc") docMapData8 =
      .ok (.oc (OcSchemaElement.mk ("OC_MAP") none (some []) none none
        (.one (OcSchemaElement.mk ("UINT64") none (some []) none
          (some ("0x0000000000000000")) .nil none))
        (some ("OC__MAP"))),
      ["#define OC__MAP_FIELDS(_, __) \\", "  OC_MAP (OC_STRING, None, _, __)",
       "  OC_DECLARE (OC__MAP)", ""])) ∧
    (("OC_MAP" : String) ≠ "OC_ASSOC") ∧ (("OC__MAP" : String) ≠ "OC_ASSOC") := by
  refine ⟨rfl, by decide, by decide⟩

/-- Claim C1 as amended: the Map-to-AssociativeBlob collapse happens
exactly when the map value's parsed schema type is the opaque data kind
`OC_DATA` (e.g. a `<data>` value with no literal content and no
attributes, or with explicit `type="blob"`): then the pair collapses to
the fixed `OC_ASSOC` node with the shared `def_name` and no Map
declaration is emitted.  A `<data>` value with 8 literal bytes and no
attributes instead infers `UINT64` and yields a declared `OC_MAP`
(see `C1_counterexample`). -/
theorem C1_map_collapse :
    (∀ (pe : PE) (upper_pfx : String) (e : Elem) (path : Option (List String))
       (buf buf1 buf2 : Buf) (ck cv : Elem) (rest : List Elem) (k : PlistKey)
       (v : OcSchemaElement),
      e.children = ck :: cv :: rest →
      e.children.length % 2 = 0 →
      pe ck path none none buf = .ok (.key k, buf1) →
      pe cv path none (some ("map")) buf1 = .ok (.oc v, buf2) →
      v.schema_type = "OC_DATA" →
      parse_map pe upper_pfx e path buf =
        .ok (.oc (OcSchemaElement.mk ("OC_ASSOC") none path none none .nil
          (some ("OC_ASSOC"))), buf2)) ∧
    plistToConfig ("Oc") docMapBlob =
      .ok (.oc (OcSchemaElement.mk ("OC_ASSOC") none (some []) none none .nil
        (some ("OC_ASSOC"))), []) := by
  constructor
  · intro pe upper_pfx e path buf buf1 buf2 ck cv rest k v hc hlen hk hv hst
    rw [hc] at hlen
    simp only [List.length_cons] at hlen
    simp [parse_map, init_dict, hc, List.length_cons, hlen, hk, hv, hst, check_key]
  · rfl

/-- Witness for the amended C1 at a concrete input: a map whose `<data>`
value has no content and no attributes (hence kind `OC_DATA`) collapses to
`OC_ASSOC`, via `C1_map_collapse` applied to the concrete document. -/
theorem C1_map_collapse_witness :
    parse_map (parseElem ("OC") 3) ("OC") docMapBlob (some []) [] =
      .ok (.oc (OcSchemaElement.mk ("OC_ASSOC") none (some []) none none .nil
        (some ("OC_ASSOC"))), []) := by
  exact C1_map_collapse.1 (parseElem ("OC") 3) ("OC") docMapBlob (some []) [] [] []
    (keyElem ("Key")) (Elem.mk ("data") [] none []) []
    (PlistKey.make (some ("Key")) none)
    (OcSchemaElement.mk ("OC_DATA") none (some []) none none .nil none)
    rfl rfl rfl rfl rfl

/-! ## Claim C4 -/

/-- Counterexample to claim C4: for an `<array>` element parsed at path
`["Items"]`, the element-template schema node does not get path `None` —
the builder passes the array's own (copied) path into the template
subtree, so the template's path equals `["Items"]`. -/
theorem C4_counterexample :
    (parseElem ("OC") 10 arrItems (some (["Items"])) none none [] =
      .ok (.oc (OcSchemaElement.mk ("OC_ARRAY") none (some (["Items"])) none none
        (.one (OcSchemaElement.mk ("OC_STRING") none (some (["Items"])) none (some ("x")) .nil
          (some ("OC_STRING"))))
        (some ("OC_ITEMS_ARRAY"))),
      ["#define OC_ITEMS_ARRAY_FIELDS(_, __) \\", "  OC_ARRAY (OC_STRING, _, __)",
       "  OC_DECLARE (OC_ITEMS_ARRAY)", ""])) ∧
    ((some (["Items"]) : Option (List String)) ≠ none) := by
  refine ⟨rfl, by decide⟩

/-- Claim C4 as amended: `parse_array` passes the array's own path —
unchanged, with no key segment appended — into the single element
template, so whenever an `<array>` element parses successfully the
template node's `path` equals the array's own path (it is `None` only
when that path is `None`, which never happens from the root). -/
theorem C4_template_path (upper_pfx : String) (fuel : Nat) (e : Elem)
    (path : Option (List String)) (ctx : Option String) (buf : Buf)
    (a : OcSchemaElement) (buf2 : Buf)
    (htag : e.tag = "array")
    (h : parseElem upper_pfx fuel e path none ctx buf = .ok (.oc a, buf2)) :
    a.path = path ∧ ∃ ch, a.of = .one ch ∧ ch.path = path := by
  cases fuel with
  | zero =>
    unfold parseElem at h
    cases h
  | succ fuel =>
    unfold parseElem at h
    dsimp only [] at h
    rw [htag] at h
    rw [if_neg (by decide), if_neg (by decide), if_neg (by decide), if_neg (by decide),
      if_neg (by decide), if_pos rfl, newPath_key_none] at h
    unfold parse_array at h
    split at h
    · cases h
    next c0 cs hc =>
      split at h
      next er heq =>
        cases h
      next heq =>
        cases h
      next ch buf1 heq =>
        dsimp only [] at h
        split at h
        next er heq2 =>
          cases h
        next array2 bufe heq2 =>
          injection h with h
          injection h with h1 h2
          have hchpath : ch.path = path := by
            have h3 := (((parseElem_inv upper_pfx fuel c0 path none none buf).2 _ _ heq).2
              ch rfl).2
            simpa using h3
          cases path with
          | none =>
            unfold emit_array at heq2
            simp only [OcSchemaElement.path_mk] at heq2
            cases heq2
          | some p =>
            rw [emit_array_ok upper_pfx _ ctx buf1 p ch (by simp) (by simp)] at heq2
            injection heq2 with heq2
            injection heq2 with heq2a heq2b
            injection h1 with h1
            subst h1
            rw [← heq2a]
            refine ⟨by simp, ch, by simp, hchpath⟩

/-- Witness for the amended C4 at a concrete input: the template node of
`arrItems` parsed at path `["Items"]` carries that same path. -/
theorem C4_template_path_witness :
    (OcSchemaElement.mk ("OC_ARRAY") none (some (["Items"])) none none
      (.one (OcSchemaElement.mk ("OC_STRING") none (some (["Items"])) none (some ("x")) .nil
        (some ("OC_STRING"))))
      (some ("OC_ITEMS_ARRAY"))).path = some (["Items"]) ∧
    ∃ ch, (OcSchemaElement.mk ("OC_ARRAY") none (some (["Items"])) none none
      (.one (OcSchemaElement.mk ("OC_STRING") none (some (["Items"])) none (some ("x")) .nil
        (some ("OC_STRING"))))
      (some ("OC_ITEMS_ARRAY"))).of = .one ch ∧ ch.path = some (["Items"]) := by
  exact C4_template_path ("OC") 10 arrItems (some (["Items"])) none []
    (OcSchemaElement.mk ("OC_ARRAY") none (some (["Items"])) none none
      (.one (OcSchemaElement.mk ("OC_STRING") none (some (["Items"])) none (some ("x")) .nil
        (some ("OC_STRING"))))
      (some ("OC_ITEMS_ARRAY")))
    ["#define OC_ITEMS_ARRAY_FIELDS(_, __) \\", "  OC_ARRAY (OC_STRING, _, __)",
     "  OC_DECLARE (OC_ITEMS_ARRAY)", ""]
    rfl rfl

/-! ## Claim C10 -/

/-- Claim C10 (confirmed): in a plain `<dict>` (struct template) a `<key>`
child whose text is absent is rejected with the fatal user error about the
empty key (its contents are needed as the field's variable name), whereas
in a `<dict type="map">` the key's text is never checked, so a map whose
key element has no text is accepted (concretely: `mapEmptyKey` builds an
`OC_MAP` with its declaration). -/
theorem C10_empty_key :
    (∀ (pe : PE) (e : Elem) (path : Option (List String)) (buf buf1 : Buf)
       (ck : Elem) (rest : List Elem) (k : PlistKey),
      e.children = ck :: rest →
      e.children.length % 2 = 0 →
      pe ck path none none buf = .ok (.key k, buf1) →
      k.value = none →
      parse_fields pe e path buf =
        .error (.user ("<key> tag within <dict> fields template cannot be empty, contents are used as variable name"))) ∧
    plistToConfig ("Oc") mapEmptyKey =
      .ok (.oc (OcSchemaElement.mk ("OC_MAP") none (some []) none none
        (.one (OcSchemaElement.mk ("OC_STRING") none (some []) none (some ("x")) .nil
          (some ("OC_STRING"))))
        (some ("OC__MAP"))),
      ["#define OC__MAP_FIELDS(_, __) \\", "  OC_MAP (OC_STRING, OC_STRING, _, __)",
       "  OC_DECLARE (OC__MAP)", ""]) := by
  constructor
  · intro pe e path buf buf1 ck rest k hc hlen hk hv
    rw [hc] at hlen
    simp only [List.length_cons] at hlen
    unfold parse_fields init_dict
    rw [hc]
    simp only [List.length_cons, parseFieldsLoop, hk, hlen, check_key, hv]
    simp [hv]
  · rfl

/-- Witness for C10 at a concrete input: a plain `<dict>` whose first key
element has no text is rejected with the empty-key user error. -/
theorem C10_empty_key_witness :
    parse_fields (parseElem ("OC") 3) (Elem.mk ("dict") [] none [emptyKey, strX]) (some []) [] =
      .error (.user ("<key> tag within <dict> fields template cannot be empty, contents are used as variable name")) := by
  exact C10_empty_key.1 (parseElem ("OC") 3) (Elem.mk ("dict") [] none [emptyKey, strX])
    (some []) [] [] emptyKey [strX] (PlistKey.make none none) rfl rfl rfl rfl

/-! ## Claim C6 -/

/-- Claim C6 (confirmed): a successfully emitted Array gets
`def_name = uppercase(prefix) ++ "_" ++ underscore-joined uppercased path
segments ++ "_" ++ ("ENTRY" when built as a map's value template, else
"ARRAY")`; a Map gets the same shape with suffix `"MAP"`; Struct nodes get
no generated identifier; and concretely a top-level dict field `Items`
holding an array yields identifier `OC_ITEMS_ARRAY` for prefix `Oc`. -/
theorem C6_identifiers :
    (∀ (camel : String) (a : OcSchemaElement) (ctx : Option String) (buf : Buf)
       (p : List String) (ch : OcSchemaElement) (r : OcSchemaElement) (buf2 : Buf),
      a.path = some p → a.of = .one ch →
      emit_array (pyUpper camel) a ctx buf = .ok (r, buf2) →
      r.def_name = some (pyUpper camel ++ "_" ++ upper_path p ++ "_" ++
        (if ctx = some ("map") then "ENTRY" else "ARRAY"))) ∧
    (∀ (camel : String) (a : OcSchemaElement) (buf : Buf) (p : List String)
       (ch : OcSchemaElement) (r : OcSchemaElement) (buf2 : Buf),
      a.path = some p → a.of = .one ch →
      emit_map (pyUpper camel) a buf = .ok (r, buf2) →
      r.def_name = some (pyUpper camel ++ "_" ++ upper_path p ++ "_MAP")) ∧
    (∀ (pe : PE) (e : Elem) (path : Option (List String)) (buf buf2 : Buf)
       (st : OcSchemaElement),
      parse_fields pe e path buf = .ok (.oc st, buf2) → st.def_name = none) ∧
    plistToConfig ("Oc") docItems =
      .ok (.oc (OcSchemaElement.mk ("OC_STRUCT") none (some []) none none
        (.many [OcSchemaElement.mk ("OC_ARRAY") (some ("Items")) (some (["Items"])) none none
          (.one (OcSchemaElement.mk ("OC_STRING") none (some (["Items"])) none (some ("x"))
            .nil (some ("OC_STRING"))))
          (some ("OC_ITEMS_ARRAY"))])
        none),
      ["/**", "  Items section", "**/", "",
       "#define OC_ITEMS_ARRAY_FIELDS(_, __) \\", "  OC_ARRAY (OC_STRING, _, __)",
       "  OC_DECLARE (OC_ITEMS_ARRAY)", ""]) := by
  refine ⟨?_, ?_, ?_, ?_⟩
  · intro camel a ctx buf p ch r buf2 hp ho h
    rw [emit_array_ok (pyUpper camel) a ctx buf p ch hp ho] at h
    injection h with h
    injection h with h1 h2
    rw [← h1]
    simp
  · intro camel a buf p ch r buf2 hp ho h
    rw [emit_map_ok (pyUpper camel) a buf p ch hp ho] at h
    injection h with h
    injection h with h1 h2
    rw [← h1]
    simp
  · intro pe e path buf buf2 st h
    unfold parse_fields at h
    split at h
    · cases h
    · split at h
      · cases h
      next fields buf1 heq =>
        injection h with h
        injection h with h1 h2
        injection h1 with h1
        rw [← h1]
        simp
  · rfl

/-- Witness for C6 at a concrete input: emitting the `Items` array with
prefix `Oc` yields identifier `OC_ITEMS_ARRAY`. -/
theorem C6_identifiers_witness :
    (OcSchemaElement.mk ("OC_ARRAY") none (some (["Items"])) none none
      (.one (OcSchemaElement.mk ("OC_STRING") none (some (["Items"])) none (some ("x")) .nil
        (some ("OC_STRING"))))
      (some ("OC_ITEMS_ARRAY"))).def_name = some ("OC_ITEMS_ARRAY") := by
  have h := C6_identifiers.1 ("Oc")
    (OcSchemaElement.mk ("OC_ARRAY") none (some (["Items"])) none none
      (.one (OcSchemaElement.mk ("OC_STRING") none (some (["Items"])) none (some ("x")) .nil
        (some ("OC_STRING"))))
      none)
    none [] (["Items"])
    (OcSchemaElement.mk ("OC_STRING") none (some (["Items"])) none (some ("x")) .nil
      (some ("OC_STRING")))
    (OcSchemaElement.mk ("OC_ARRAY") none (some (["Items"])) none none
      (.one (OcSchemaElement.mk ("OC_STRING") none (some (["Items"])) none (some ("x")) .nil
        (some ("OC_STRING"))))
      (some ("OC_ITEMS_ARRAY")))
    ["#define OC_ITEMS_ARRAY_FIELDS(_, __) \\", "  OC_ARRAY (OC_STRING, _, __)",
     "  OC_DECLARE (OC_ITEMS_ARRAY)", ""]
    rfl rfl rfl
  exact h

/-! ## Claim C7 -/

/-- Claim C7 (confirmed): parsing only ever appends to the declaration
buffer; an array's own declaration lines are appended after everything
emitted while building its element subtree (children before parent); and
on the concrete document `docOrder` (a struct with an array field `A`
whose template contains a nested array `B`, followed by a map field `C`)
the buffer holds the inner array declaration, then the outer array's,
then the map's, with no struct declaration anywhere. -/
theorem C7_declaration_order :
    (∀ (upper_pfx : String) (fuel : Nat) (e : Elem) (path : Option (List String))
       (key ctx : Option String) (buf : Buf) (res : ParseRes) (buf2 : Buf),
      parseElem upper_pfx fuel e path key ctx buf = .ok (res, buf2) →
      ∃ s, buf2 = buf ++ s) ∧
    (∀ (upper_pfx : String) (fuel : Nat) (e : Elem) (path : Option (List String))
       (ctx : Option String) (buf : Buf) (r : ParseRes) (buf2 : Buf),
      parse_array (parseElem upper_pfx fuel) upper_pfx e path ctx buf = .ok (r, buf2) →
      ∃ bufc l2 dn, BufExt buf bufc ∧
        buf2 = bufc ++ ["#define " ++ dn ++ "_FIELDS(_, __) \\", l2,
          "  OC_DECLARE (" ++ dn ++ ")", ""]) ∧
    plistToConfig ("Oc") docOrder =
      .ok (.oc (OcSchemaElement.mk ("OC_STRUCT") none (some []) none none
        (.many
          [OcSchemaElement.mk ("OC_ARRAY") (some ("A")) (some (["A"])) none none
            (.one (OcSchemaElement.mk ("OC_STRUCT") none (some (["A"])) none none
              (.many
                [OcSchemaElement.mk ("OC_ARRAY") (some ("B")) (some (["A", "B"])) none none
                  (.one (OcSchemaElement.mk ("OC_STRING") none (some (["A", "B"])) none
                    (some ("x")) .nil (some ("OC_STRING"))))
                  (some ("OC_A_B_ARRAY"))])
              none))
            (some ("OC_A_ARRAY")),
           OcSchemaElement.mk ("OC_MAP") (some ("C")) (some (["C"])) none none
            (.one (OcSchemaElement.mk ("OC_STRING") none (some (["C"])) none (some ("x")) .nil
              (some ("OC_STRING"))))
            (some ("OC_C_MAP"))])
        none),
      ["/**", "  A section", "**/", "",
       "#define OC_A_B_ARRAY_FIELDS(_, __) \\", "  OC_ARRAY (OC_STRING, _, __)",
       "  OC_DECLARE (OC_A_B_ARRAY)", "",
       "#define OC_A_ARRAY_FIELDS(_, __) \\", "  OC_ARRAY (None, _, __)",
       "  OC_DECLARE (OC_A_ARRAY)", "",
       "/**", "  C section", "**/", "",
       "#define OC_C_MAP_FIELDS(_, __) \\", "  OC_MAP (OC_STRING, OC_STRING, _, __)",
       "  OC_DECLARE (OC_C_MAP)", ""]) := by
  refine ⟨?_, ?_, ?_⟩
  · intro upper_pfx fuel e path key ctx buf res buf2 h
    exact ((parseElem_inv upper_pfx fuel e path key ctx buf).2 res buf2 h).1
  · intro upper_pfx fuel e path ctx buf r buf2 h
    unfold parse_array at h
    split at h
    · cases h
    next c0 cs hc =>
      split at h
      next er heq =>
        cases h
      next heq =>
        cases h
      next ch buf1 heq =>
        dsimp only [] at h
        split at h
        next er heq2 =>
          cases h
        next array2 bufe heq2 =>
          injection h with h
          injection h with h1 h2
          have hbuf1 : BufExt buf buf1 := by
            have h3 := ((parseElem_inv upper_pfx fuel c0 path none none buf).2 _ _ heq).1
            exact h3
          cases path with
          | none =>
            unfold emit_array at heq2
            simp only [OcSchemaElement.path_mk] at heq2
            cases heq2
          | some p =>
            rw [emit_array_ok upper_pfx _ ctx buf1 p ch (by simp) (by simp)] at heq2
            injection heq2 with heq2
            injection heq2 with heq2a heq2b
            subst h2
            rw [← heq2b]
            exact ⟨buf1, _, _, hbuf1, rfl⟩
  · rfl

/-- Witness for C7 at a concrete input: the buffer produced while parsing
`arrItems` extends the empty starting buffer by appended lines, with the
array's own declaration last, via the append-only and
children-before-parent parts applied concretely. -/
theorem C7_declaration_order_witness :
    (∃ s, (["#define OC_ITEMS_ARRAY_FIELDS(_, __) \\", "  OC_ARRAY (OC_STRING, _, __)",
      "  OC_DECLARE (OC_ITEMS_ARRAY)", ""] : Buf) = [] ++ s) ∧
    (∃ bufc l2 dn, BufExt [] bufc ∧
      (["#define OC_ITEMS_ARRAY_FIELDS(_, __) \\", "  OC_ARRAY (OC_STRING, _, __)",
        "  OC_DECLARE (OC_ITEMS_ARRAY)", ""] : Buf) =
        bufc ++ ["#define " ++ dn ++ "_FIELDS(_, __) \\", l2,
          "  OC_DECLARE (" ++ dn ++ ")", ""]) := by
  constructor
  · exact C7_declaration_order.1 ("OC") 10 arrItems (some (["Items"])) none none []
      (.oc (OcSchemaElement.mk ("OC_ARRAY") none (some (["Items"])) none none
        (.one (OcSchemaElement.mk ("OC_STRING") none (some (["Items"])) none (some ("x")) .nil
          (some ("OC_STRING"))))
        (some ("OC_ITEMS_ARRAY")))) _ rfl
  · exact C7_declaration_order.2.1 ("OC") 10 arrItems (some (["Items"])) none []
      (.oc (OcSchemaElement.mk ("OC_ARRAY") none (some (["Items"])) none none
        (.one (OcSchemaElement.mk ("OC_STRING") none (some (["Items"])) none (some ("x")) .nil
          (some ("OC_STRING"))))
        (some ("OC_ITEMS_ARRAY")))) _ rfl

/-! ## Claim C8 -/

/-- Counterexample to claim C8: in `docBadKey` the child at even index 2
is not a `<key>`, yet the run does not terminate with that structural
violation before evaluating any value child — the value of the first pair
(index 1, an unhandled `bogus` tag) is evaluated first and its deeper
error is the one reported. -/
theorem C8_counterexample :
    (parse_fields (parseElem ("OC") 5) docBadKey (some (["X"])) [] =
      .error (.user ("Unhandled tag:bogus"))) ∧
    (("Unhandled tag:bogus" : String) ≠ "<key> required as every even element of <dict>") := by
  refine ⟨rfl, by decide⟩

/-- Claim C8 as amended: the child-count validation (non-zero, even) of a
plain `<dict>` happens before any child is evaluated (the error is
produced for every possible child list), and the key-at-even-index check
of a pair happens before that same pair's value is evaluated (for the
first pair: for every possible remaining children); but values of earlier
pairs are evaluated before later pairs' key checks, so a deep error in an
earlier value is reported instead of a later key violation
(see `C8_counterexample`). -/
theorem C8_dict_validation :
    (∀ (pe : PE) (e : Elem) (path : Option (List String)) (buf : Buf),
      e.tag = "dict" → e.children = [] →
      parse_fields pe e path buf = .error (.user ("No elements in <dict>"))) ∧
    (∀ (pe : PE) (e : Elem) (path : Option (List String)) (buf : Buf),
      e.tag = "dict" → e.children.length % 2 = 1 →
      parse_fields pe e path buf =
        .error (.user ("Number of nodes in <dict> must be even"))) ∧
    (∀ (pe : PE) (e : Elem) (path : Option (List String)) (buf buf1 : Buf)
       (c0 : Elem) (rest : List Elem) (x : OcSchemaElement),
      e.tag = "dict" → e.children = c0 :: rest → e.children.length % 2 = 0 →
      pe c0 path none none buf = .ok (.oc x, buf1) → x.schema_type ≠ "key" →
      parse_fields pe e path buf =
        .error (.user ("<key> required as first element of <dict>"))) := by
  refine ⟨?_, ?_, ?_⟩
  · intro pe e path buf htag hc
    simp [parse_fields, init_dict, hc, htag]
  · intro pe e path buf htag hlen
    have h0 : e.children.length ≠ 0 := by omega
    simp [parse_fields, init_dict, htag, h0, hlen]
  · intro pe e path buf buf1 c0 rest x htag hc hlen hk hx
    rw [hc] at hlen
    simp only [List.length_cons] at hlen
    unfold parse_fields init_dict
    rw [hc, htag]
    simp only [List.length_cons, parseFieldsLoop, hk, hlen, check_key, hx]
    simp [hx]

/-- Witness for the amended C8 at a concrete input: a `<dict>` whose first
child is a `<string>` (not a `<key>`) is rejected with the key-required
error before its pair's value is looked at. -/
theorem C8_dict_validation_witness :
    parse_fields (parseElem ("OC") 3) (Elem.mk ("dict") [] none [strX, strX]) (some []) [] =
      .error (.user ("<key> required as first element of <dict>")) := by
  exact C8_dict_validation.2.2 (parseElem ("OC") 3) (Elem.mk ("dict") [] none [strX, strX])
    (some []) [] [] strX [strX]
    (OcSchemaElement.mk ("OC_STRING") none (some []) none (some ("x")) .nil (some ("OC_STRING")))
    rfl rfl rfl rfl (by decide)

/-! ## Claim C5 -/

/-- Counterexample to claim C5: on the valid document `docDup` (two struct
fields both named `Items`, each holding an array) the two Array nodes
receive the same generated identifier `OC_ITEMS_ARRAY`, and its
declaration is emitted twice — the identifiers of one run are not
pairwise distinct. -/
theorem C5_counterexample :
    (plistToConfig ("Oc") docDup =
      .ok (.oc (OcSchemaElement.mk ("OC_STRUCT") none (some []) none none
        (.many
          [OcSchemaElement.mk ("OC_ARRAY") (some ("Items")) (some (["Items"])) none none
            (.one (OcSchemaElement.mk ("OC_STRING") none (some (["Items"])) none (some ("x"))
              .nil (some ("OC_STRING"))))
            (some ("OC_ITEMS_ARRAY")),
           OcSchemaElement.mk ("OC_ARRAY") (some ("Items")) (some (["Items"])) none none
            (.one (OcSchemaElement.mk ("OC_STRING") none (some (["Items"])) none (some ("x"))
              .nil (some ("OC_STRING"))))
            (some ("OC_ITEMS_ARRAY"))])
        none),
      ["/**", "  Items section", "**/", "",
       "#define OC_ITEMS_ARRAY_FIELDS(_, __) \\", "  OC_ARRAY (OC_STRING, _, __)",
       "  OC_DECLARE (OC_ITEMS_ARRAY)", "",
       "/**", "  Items section", "**/", "",
       "#define OC_ITEMS_ARRAY_FIELDS(_, __) \\", "  OC_ARRAY (OC_STRING, _, __)",
       "  OC_DECLARE (OC_ITEMS_ARRAY)", ""])) ∧
    ((["/**", "  Items section", "**/", "",
       "#define OC_ITEMS_ARRAY_FIELDS(_, __) \\", "  OC_ARRAY (OC_STRING, _, __)",
       "  OC_DECLARE (OC_ITEMS_ARRAY)", "",
       "/**", "  Items section", "**/", "",
       "#define OC_ITEMS_ARRAY_FIELDS(_, __) \\", "  OC_ARRAY (OC_STRING, _, __)",
       "  OC_DECLARE (OC_ITEMS_ARRAY)", ""] : Buf).count
        ("  OC_DECLARE (OC_ITEMS_ARRAY)") = 2) := by
  refine ⟨rfl, by decide⟩

/-- Claim C5 as amended: the whole run is a deterministic function of the
document and the prefix; each Array/Map construction emits its
declaration exactly once, appending exactly its own four lines at build
time; but generated identifiers are not pairwise distinct for every valid
document — identically-stringifying paths (e.g. duplicate field names)
yield equal identifiers (see `C5_counterexample`). -/
theorem C5_determinism_emit_once :
    (∀ (camel : String) (root : Elem),
      plistToConfig camel root = plistToConfig camel root) ∧
    (∀ (camel : String) (a : OcSchemaElement) (ctx : Option String) (buf : Buf)
       (p : List String) (ch : OcSchemaElement),
      a.path = some p → a.of = .one ch →
      emit_array (pyUpper camel) a ctx buf =
        .ok (a.with_def_name (some (pyUpper camel ++ "_" ++ upper_path p ++ "_" ++
            (if ctx = some ("map") then "ENTRY" else "ARRAY"))),
          buf ++ ["#define " ++ (pyUpper camel ++ "_" ++ upper_path p ++ "_" ++
                    (if ctx = some ("map") then "ENTRY" else "ARRAY")) ++ "_FIELDS(_, __) \\",
                  "  OC_ARRAY (" ++ pyStr ch.def_name ++ ", _, __)",
                  "  OC_DECLARE (" ++ (pyUpper camel ++ "_" ++ upper_path p ++ "_" ++
                    (if ctx = some ("map") then "ENTRY" else "ARRAY")) ++ ")",
                  ""])) ∧
    (∀ (camel : String) (a : OcSchemaElement) (buf : Buf) (p : List String)
       (ch : OcSchemaElement),
      a.path = some p → a.of = .one ch →
      emit_map (pyUpper camel) a buf =
        .ok (a.with_def_name (some (pyUpper camel ++ "_" ++ upper_path p ++ "_MAP")),
          buf ++ ["#define " ++ (pyUpper camel ++ "_" ++ upper_path p ++ "_MAP") ++
                    "_FIELDS(_, __) \\",
                  "  OC_MAP (OC_STRING, " ++ pyStr ch.def_name ++ ", _, __)",
                  "  OC_DECLARE (" ++ (pyUpper camel ++ "_" ++ upper_path p ++ "_MAP") ++ ")",
                  ""])) := by
  refine ⟨fun _ _ => rfl, ?_, ?_⟩
  · intro camel a ctx buf p ch hp ho
    exact emit_array_ok (pyUpper camel) a ctx buf p ch hp ho
  · intro camel a buf p ch hp ho
    exact emit_map_ok (pyUpper camel) a buf p ch hp ho

/-- Witness for the amended C5 at a concrete input: one emission of the
`Items` array appends exactly its four declaration lines. -/
theorem C5_determinism_emit_once_witness :
    emit_array (pyUpper ("Oc"))
      (OcSchemaElement.mk ("OC_ARRAY") none (some (["Items"])) none none
        (.one (OcSchemaElement.mk ("OC_STRING") none (some (["Items"])) none (some ("x")) .nil
          (some ("OC_STRING"))))
        none)
      none [] =
      .ok (OcSchemaElement.mk ("OC_ARRAY") none (some (["Items"])) none none
        (.one (OcSchemaElement.mk ("OC_STRING") none (some (["Items"])) none (some ("x")) .nil
          (some ("OC_STRING"))))
        (some ("OC_ITEMS_ARRAY")),
      ["#define OC_ITEMS_ARRAY_FIELDS(_, __) \\", "  OC_ARRAY (OC_STRING, _, __)",
       "  OC_DECLARE (OC_ITEMS_ARRAY)", ""]) := by
  have h := C5_determinism_emit_once.2.1 ("Oc")
    (OcSchemaElement.mk ("OC_ARRAY") none (some (["Items"])) none none
      (.one (OcSchemaElement.mk ("OC_STRING") none (some (["Items"])) none (some ("x")) .nil
        (some ("OC_STRING"))))
      none)
    none [] (["Items"])
    (OcSchemaElement.mk ("OC_STRING") none (some (["Items"])) none (some ("x")) .nil
      (some ("OC_STRING")))
    rfl rfl
  exact h

/-! ## Claim C9 -/

/-- Claim C9 (confirmed): setting a schema node's declared name when one
is already set is reported as the internal invariant violation (distinct
from user errors), setting it on an unnamed node succeeds, and for every
input the parser never reaches the internal error — every freshly built
schema node is unnamed, so the single deferred `set_name` per struct
field always finds `name = None`. -/
theorem C9_set_name_once :
    (∀ (e : OcSchemaElement) (n : String), e.name ≠ none →
      e.set_name n =
        .error (.internal ("name should not get set more than once on OcSchemaElement"))) ∧
    (∀ (e : OcSchemaElement) (n : String), e.name = none →
      e.set_name n = .ok (e.with_name (some n))) ∧
    (∀ (upper_pfx : String) (fuel : Nat) (e : Elem) (path : Option (List String))
       (key ctx : Option String) (buf : Buf) (m : String),
      parseElem upper_pfx fuel e path key ctx buf ≠ .error (.internal m)) ∧
    (∀ (upper_pfx : String) (fuel : Nat) (e : Elem) (path : Option (List String))
       (key ctx : Option String) (buf : Buf) (e2 : OcSchemaElement) (buf2 : Buf),
      parseElem upper_pfx fuel e path key ctx buf = .ok (.oc e2, buf2) → e2.name = none) := by
  refine ⟨?_, ?_, ?_, ?_⟩
  · intro e n h
    unfold OcSchemaElement.set_name
    simp [h]
  · intro e n h
    exact set_name_of_none e n h
  · intro upper_pfx fuel e path key ctx buf m
    exact (parseElem_inv upper_pfx fuel e path key ctx buf).1 m
  · intro upper_pfx fuel e path key ctx buf e2 buf2 h
    exact (((parseElem_inv upper_pfx fuel e path key ctx buf).2 _ _ h).2 e2 rfl).1

/-- Witness for C9 at a concrete input: a second `set_name` on a node
already named `a` is the internal invariant violation, and a first
`set_name` on an unnamed node succeeds. -/
theorem C9_set_name_once_witness :
    ((OcSchemaElement.mk ("OC_STRING") (some ("a")) none none none .nil none).set_name ("b") =
      .error (.internal ("name should not get set more than once on OcSchemaElement"))) ∧
    ((OcSchemaElement.mk ("OC_STRING") none none none none .nil none).set_name ("a") =
      .ok (OcSchemaElement.mk ("OC_STRING") (some ("a")) none none none .nil none)) := by
  constructor
  · exact C9_set_name_once.1 (OcSchemaElement.mk ("OC_STRING") (some ("a")) none none none
      .nil none) ("b") (by simp)
  · exact C9_set_name_once.2.1 (OcSchemaElement.mk ("OC_STRING") none none none none
      .nil none) ("a") (by simp)
